import Mathlib

/-!
# Artwork selection of `fanart/fanart.go`

A shallow embedding of the image selectors of `src/fanart/fanart.go`
(`GetBestImage`, `GetMultipleImage`, `GetBestShowImage`, `GetMultipleShowImage`
and their helpers `likeConvert` and `contains`), followed by theorems about them.

Conventions of the embedding:

* a Go slice `[]*Image` is a `List (Option Image)`; `none` is the nil pointer;
* the variadic `lists ...[]*Image` is a `List (List (Option Image))`;
* `config.Get().Language` is the explicit first argument `language`;
* Go `int` values are `Int`; the selectors only compare them;
* an early `return` out of a `for` loop is an explicit outcome of the loop function.
-/

namespace Fanart

/-! ## Data model -/

/-- Go `type Image struct`. -/
structure Image where
  ID : String
  URL : String
  Lang : String
  Likes : String
  deriving DecidableEq

/-- Go `type ShowImage struct`: an embedded `Image` and a `Season`. -/
structure ShowImage extends Image where
  Season : String
  deriving DecidableEq

/-! ## `strconv.Atoi`

`likeConvert` calls the Go standard library. The model below follows
`strconv.ParseUint(s, 10, 64)`, `strconv.ParseInt(s, 10, 0)` and `strconv.Atoi`
for a 64-bit `int`. The library loops over bytes; every byte of a non-ASCII
character is outside `'0'..'9'`, so looping over characters gives the same result. -/

/-- The two error kinds of `strconv.NumError`. -/
inductive NumError where
  | errSyntax
  | errRange
  deriving DecidableEq

/-- The largest `uint64`. -/
def maxUint64 : Nat := 2 ^ 64 - 1

/-- The digit loop of `strconv.ParseUint` in base 10: a non-digit is a syntax
error with value 0, an overflow is a range error with value `maxUint64`, reported
as soon as it happens. -/
def parseUintLoop : List Char → Nat → Nat × Option NumError
  | [], n => (n, none)
  | c :: cs, n =>
    if '0' ≤ c ∧ c ≤ '9' then
      if n ≥ maxUint64 / 10 + 1 then (maxUint64, some NumError.errRange)
      else if n * 10 + (c.toNat - '0'.toNat) > maxUint64 then (maxUint64, some NumError.errRange)
      else parseUintLoop cs (n * 10 + (c.toNat - '0'.toNat))
    else (0, some NumError.errSyntax)

/-- Go `strconv.ParseUint(s, 10, 64)` on the characters of `s`. -/
def parseUint (s : List Char) : Nat × Option NumError :=
  match s with
  | [] => (0, some NumError.errSyntax)
  | _ => parseUintLoop s 0

/-- The sign handling and range check of `strconv.ParseInt(s, 10, 0)` once the sign
has been picked off. -/
def parseIntSigned (neg : Bool) (digits : List Char) : Int × Option NumError :=
  match parseUint digits with
  | (_, some NumError.errSyntax) => (0, some NumError.errSyntax)
  | (un, _) =>
    if !neg ∧ un ≥ 2 ^ 63 then ((2 : Int) ^ 63 - 1, some NumError.errRange)
    else if neg ∧ un > 2 ^ 63 then (-(2 : Int) ^ 63, some NumError.errRange)
    else if neg then (-(un : Int), none)
    else ((un : Int), none)

/-- Go `strconv.ParseInt(s, 10, 0)` with a 64-bit `int`. -/
def parseInt (s : List Char) : Int × Option NumError :=
  match s with
  | [] => (0, some NumError.errSyntax)
  | '+' :: rest => parseIntSigned false rest
  | '-' :: rest => parseIntSigned true rest
  | _ => parseIntSigned false s

/-- Go `strconv.Atoi`: the value and the error. -/
def Atoi (s : String) : Int × Option NumError := parseInt s.toList

/-! ## Helpers of `fanart.go` -/

/-- Go `likeConvert`: `i, _ := strconv.Atoi(likes); return i`. -/
def likeConvert (likes : String) : Int := (Atoi likes).1

/-- Go `contains`. -/
def contains : List String → String → Bool
  | [], _ => false
  | item :: rest, val => if item = val then true else contains rest val

/-! ## `GetBestImage` -/

/-- Outcome of one inner `for _, i := range l` loop of the best-image selectors:
either the function returned a URL from inside the loop, or the loop ran to its
end with the final `bestLikes` and `bestItem`. -/
inductive Scan where
  | ret (url : String)
  | cont (bestLikes : Int) (bestItem : String)
  deriving DecidableEq

/-- The inner loop of `GetBestImage` (lines 235-249), started with the given
`bestLikes` and `bestItem`. -/
def bestScan (language : String) : List (Option Image) → Int → String → Scan
  | [], bestLikes, bestItem => Scan.cont bestLikes bestItem
  | none :: rest, bestLikes, bestItem => bestScan language rest bestLikes bestItem
  | some i :: rest, bestLikes, bestItem =>
    if i.Lang = language then Scan.ret i.URL
    else if i.Lang = "en" ∨ i.Lang = "" then
      if likeConvert i.Likes > bestLikes then bestScan language rest (likeConvert i.Likes) i.URL
      else bestScan language rest bestLikes bestItem
    else bestScan language rest bestLikes bestItem

/-- The outer loop `for _, l := range lists` of `GetBestImage` followed by the
final `return old` (lines 231-256). -/
def bestLoop (language old : String) : List (List (Option Image)) → String
  | [] => old
  | l :: ls =>
    match bestScan language l 0 "" with
    | Scan.ret url => url
    | Scan.cont bestLikes bestItem =>
      if bestLikes > 0 then bestItem else bestLoop language old ls

/-- Go `GetBestImage`. -/
def GetBestImage (language old : String) (lists : List (List (Option Image))) : String :=
  if lists.length = 0 then "" else bestLoop language old lists

/-! ## `GetMultipleImage` -/

/-- The body of the inner loop of `GetMultipleImage` for a non-nil entry
(lines 206-213): two independent appends, each guarded by `contains`. -/
def multiStep (language : String) (res : List String) (i : Image) : List String :=
  let res1 := if i.Lang = language ∧ contains res i.URL = false then res ++ [i.URL] else res
  if i.Lang = "en" ∨ i.Lang = "" then
    if contains res1 i.URL = false then res1 ++ [i.URL] else res1
  else res1

/-- The inner loop of `GetMultipleImage` (lines 201-214). -/
def multiScan (language : String) : List (Option Image) → List String → List String
  | [], res => res
  | none :: rest, res => multiScan language rest res
  | some i :: rest, res => multiScan language rest (multiStep language res i)

/-- The outer loop of `GetMultipleImage` (lines 200-215). -/
def multiLoop (language : String) : List (List (Option Image)) → List String → List String
  | [], res => res
  | l :: ls, res => multiLoop language ls (multiScan language l res)

/-- Go `GetMultipleImage`. -/
def GetMultipleImage (language old : String) (lists : List (List (Option Image))) :
    List String :=
  if lists.length = 0 then [old]
  else
    let res := multiLoop language lists []
    if res.length > 0 then res else [old]

/-! ## Season-scoped selectors -/

/-- The condition of the first inner loop of the show selectors (lines 273, 333):
`season == "" || i.Season == season`. -/
def tier1 (season : String) (i : ShowImage) : Bool :=
  decide (season = "" ∨ i.Season = season)

/-- The condition of the second inner loop of `GetBestShowImage` (line 357):
`season == "" || (i.Season == "0" && (!isStrict || idx > 1)) || i.Season == ""`. -/
def tier2 (season : String) (isStrict : Bool) (idx : Nat) (i : ShowImage) : Bool :=
  decide (season = "" ∨ (i.Season = "0" ∧ (isStrict = false ∨ idx > 1)) ∨ i.Season = "")

/-- The condition of the second inner loop of `GetMultipleShowImage` (line 294):
`season == "" || i.Season == "0" || i.Season == ""`. -/
def tier2Multi (season : String) (i : ShowImage) : Bool :=
  decide (season = "" ∨ i.Season = "0" ∨ i.Season = "")

/-- An inner loop of `GetBestShowImage` (lines 328-344 and 350-368); the two loops
differ only in the season condition `qual`. -/
def bestShowScan (language : String) (qual : ShowImage → Bool) :
    List (Option ShowImage) → Int → String → Scan
  | [], bestLikes, bestItem => Scan.cont bestLikes bestItem
  | none :: rest, bestLikes, bestItem => bestShowScan language qual rest bestLikes bestItem
  | some i :: rest, bestLikes, bestItem =>
    if qual i = true then
      if i.Lang = language then Scan.ret i.URL
      else if i.Lang = "en" ∨ i.Lang = "" then
        if likeConvert i.Likes > bestLikes then
          bestShowScan language qual rest (likeConvert i.Likes) i.URL
        else bestShowScan language qual rest bestLikes bestItem
      else bestShowScan language qual rest bestLikes bestItem
    else bestShowScan language qual rest bestLikes bestItem

/-- The outer loop of `GetBestShowImage` followed by the final `return old`
(lines 322-375). `idx` is the value of the counter before `idx++`. -/
def bestShowLoop (language season : String) (isStrict : Bool) (old : String) :
    List (List (Option ShowImage)) → Nat → String
  | [], _ => old
  | l :: ls, idx =>
    match bestShowScan language (tier1 season) l 0 "" with
    | Scan.ret url => url
    | Scan.cont bestLikes bestItem =>
      if bestLikes > 0 then bestItem
      else
        match bestShowScan language (tier2 season isStrict (idx + 1)) l bestLikes bestItem with
        | Scan.ret url => url
        | Scan.cont bestLikes2 bestItem2 =>
          if bestLikes2 > 0 then bestItem2
          else bestShowLoop language season isStrict old ls (idx + 1)

/-- Go `GetBestShowImage`. -/
def GetBestShowImage (language season : String) (isStrict : Bool) (old : String)
    (lists : List (List (Option ShowImage))) : String :=
  if lists.length = 0 then "" else bestShowLoop language season isStrict old lists 0

/-- An inner loop of `GetMultipleShowImage` (lines 268-283 and 289-304); the two
loops differ only in the season condition `qual`. -/
def multiShowScan (language : String) (qual : ShowImage → Bool) :
    List (Option ShowImage) → List String → List String
  | [], res => res
  | none :: rest, res => multiShowScan language qual rest res
  | some i :: rest, res =>
    if qual i = true then multiShowScan language qual rest (multiStep language res i.toImage)
    else multiShowScan language qual rest res

/-- The outer loop of `GetMultipleShowImage` with the statements after it
(lines 267-310): the `return res` after the first inner loop leaves the function. -/
def multiShowLoop (language season old : String) :
    List (List (Option ShowImage)) → List String → List String
  | [], res => if res.length > 0 then res else [old]
  | l :: ls, res =>
    let res1 := multiShowScan language (tier1 season) l res
    if res1.length > 0 then res1
    else multiShowLoop language season old ls (multiShowScan language (tier2Multi season) l res1)

/-- Go `GetMultipleShowImage`. -/
def GetMultipleShowImage (language season old : String)
    (lists : List (List (Option ShowImage))) : List String :=
  if lists.length = 0 then [old] else multiShowLoop language season old lists []

/-! ## Reference definitions and example inputs -/

/-- The guarded append `if !contains(res, url) { res = append(res, url) }` that
occurs in every branch of the multiple-image selectors. -/
def appendNew (res : List String) (url : String) : List String :=
  if contains res url = false then res ++ [url] else res

/-- Every repeated element removed after its first occurrence. -/
def removeRepeats : List String → List String
  | [] => []
  | x :: xs => x :: (removeRepeats xs).filter (fun y => decide (y ≠ x))

/-- The URLs of the non-nil entries of `l` whose language is the preferred one,
`"en"` or `""`, in the order of `l`. -/
def acceptableURLs (P : String) (l : List (Option Image)) : List String :=
  (l.reduceOption.filter (fun i => decide (i.Lang = P ∨ i.Lang = "en" ∨ i.Lang = ""))).map
    (fun i => i.URL)

/-- Reference definition of `GetMultipleImage`, following the specification: the
acceptable URLs over the concatenation of the lists, in discovery order and without
repeats, or `[old]` when there are none. -/
def GetMultipleImageRef (P old : String) (lists : List (List (Option Image))) : List String :=
  if removeRepeats (acceptableURLs P lists.flatten) ≠ [] then
    removeRepeats (acceptableURLs P lists.flatten)
  else [old]

/-- The list of the specification's popularity example:
`[{en, likes 3, X}, {"", likes 7, Y}]`. -/
def popularityExample : List (Option Image) :=
  [some ⟨"1", "X", "en", "3"⟩, some ⟨"2", "Y", "", "7"⟩]

/-- The non-nil entries of a show list that pass the season condition `qual`, as
plain images: what an inner loop of `GetBestShowImage` looks at. -/
def qualified (qual : ShowImage → Bool) (l : List (Option ShowImage)) : List (Option Image) :=
  (l.reduceOption.filter qual).map (fun i => some i.toImage)

/-- Reference for the season-scoped multiple-image selector: the URLs of the non-nil
entries of `l` whose season is one of `seasons` and whose language is the preferred
one, `"en"` or `""`, in discovery order, each repeat removed after its first
occurrence. -/
def seasonURLs (P : String) (seasons : List String) (l : List (Option ShowImage)) :
    List String :=
  removeRepeats
    ((l.reduceOption.filter (fun i =>
      decide (i.Season ∈ seasons ∧ (i.Lang = P ∨ i.Lang = "en" ∨ i.Lang = "")))).map
      (fun i => i.URL))

/-- A decimal digit, `'0'` to `'9'`. -/
def isDigit (c : Char) : Bool := decide ('0' ≤ c ∧ c ≤ '9')

/-- A character sequence without its optional leading sign. -/
def dropSign : List Char → List Char
  | '+' :: rest => rest
  | '-' :: rest => rest
  | cs => cs

/-- The characters of a string after its optional leading sign. -/
def unsignedPart (s : String) : List Char := dropSign s.toList

/-- A decimal integer: an optional sign followed by one or more decimal digits. -/
def isDecimalInteger (s : String) : Bool :=
  !(unsignedPart s).isEmpty && (unsignedPart s).all isDigit

/-! ## Aggregates and the artwork mappers -/

/-- Go `type Disk struct`: an embedded `Image`, `Disc` and `DiscType`. -/
structure Disk extends Image where
  Disc : String
  DiscType : String
  deriving DecidableEq

/-- Go `type Movie struct`. -/
structure Movie where
  Name : String
  TmdbID : String
  ImdbID : String
  HDMovieClearArt : List (Option Image)
  HDMovieLogo : List (Option Image)
  MoviePoster : List (Option Image)
  MovieBackground : List (Option Image)
  MovieDisc : List (Option Disk)
  MovieThumb : List (Option Image)
  MovieArt : List (Option Image)
  MovieClearArt : List (Option Image)
  MovieLogo : List (Option Image)
  MovieBanner : List (Option Image)
  deriving DecidableEq

/-- Go `type Show struct`. -/
structure Show where
  Name : String
  TvdbID : String
  HDClearArt : List (Option ShowImage)
  HdtvLogo : List (Option ShowImage)
  ClearLogo : List (Option ShowImage)
  ClearArt : List (Option ShowImage)
  TVPoster : List (Option ShowImage)
  TVBanner : List (Option ShowImage)
  TVThumb : List (Option ShowImage)
  ShowBackground : List (Option ShowImage)
  SeasonPoster : List (Option ShowImage)
  SeasonThumb : List (Option ShowImage)
  SeasonBanner : List (Option ShowImage)
  CharacterArt : List (Option ShowImage)
  deriving DecidableEq

/-- Go `xbmc.Artworks`. A field left out of a composite literal has the zero value,
here the empty list for a nil slice. -/
structure Artworks where
  Poster : List String := []
  Banner : List String := []
  FanArt : List String := []
  ClearArt : List String := []
  ClearLogo : List String := []
  Landscape : List String := []
  Icon : List String := []
  DiscArt : List String := []
  KeyArt : List String := []
  deriving DecidableEq

/-- Go `xbmc.ListItemArt`. A field left out of a composite literal has the zero
value: `""`, the empty list for a nil slice, `none` for the nil `*Artworks`. -/
structure ListItemArt where
  Thumbnail : String := ""
  Poster : String := ""
  TvShowPoster : String := ""
  Banner : String := ""
  FanArt : String := ""
  FanArts : List String := []
  ClearArt : String := ""
  ClearLogo : String := ""
  Landscape : String := ""
  Icon : String := ""
  DiscArt : String := ""
  KeyArt : String := ""
  AvailableArtworks : Option Artworks := none
  deriving DecidableEq

/-- Go `strconv.Itoa`: the decimal digits of the integer, with a leading `-` when it
is negative. -/
def Itoa (i : Int) : String :=
  if i < 0 then "-" ++ Nat.repr i.natAbs else Nat.repr i.natAbs

/-- Go `disksToImages`: `images[i] = &disk.Image` for every disk. Taking the address
of a field of a nil `*Disk` is a nil-pointer dereference, a run-time panic, which is
the result `none`; the pointers put into `images` are never nil. -/
def disksToImages : List (Option Disk) → Option (List (Option Image))
  | [] => some []
  | none :: _ => none
  | some disk :: rest =>
    match disksToImages rest with
    | none => none
    | some images => some (some disk.toImage :: images)

/-- Go `(fa *Movie) ToListItemArt`, for non-nil `fa` and `old`. The result is `none`
when `disksToImages` panics. -/
def Movie.ToListItemArt (language : String) (fa : Movie) (old : ListItemArt) :
    Option ListItemArt :=
  match disksToImages fa.MovieDisc with
  | none => none
  | some discs =>
    let availableArtworks : Artworks :=
      { Poster := GetMultipleImage language old.Poster [fa.MoviePoster]
        Banner := GetMultipleImage language old.Banner [fa.MovieBanner]
        FanArt := GetMultipleImage language old.FanArt [fa.MovieBackground]
        ClearArt := GetMultipleImage language old.ClearArt [fa.HDMovieClearArt, fa.MovieClearArt]
        ClearLogo := GetMultipleImage language old.ClearLogo [fa.HDMovieLogo, fa.MovieLogo]
        Landscape := GetMultipleImage language old.Landscape [fa.MovieThumb]
        KeyArt := GetMultipleImage language old.KeyArt [fa.MovieBackground]
        DiscArt := GetMultipleImage language old.DiscArt [discs] }
    some
      { Poster := GetBestImage language old.Poster [fa.MoviePoster]
        Thumbnail := old.Thumbnail
        Banner := GetBestImage language old.Banner [fa.MovieBanner]
        FanArt := GetBestImage language old.FanArt [fa.MovieBackground]
        FanArts := GetMultipleImage language old.FanArt [fa.MovieBackground]
        ClearArt := GetBestImage language old.ClearArt [fa.HDMovieClearArt, fa.MovieClearArt]
        ClearLogo := GetBestImage language old.ClearLogo [fa.HDMovieLogo, fa.MovieLogo]
        Landscape := GetBestImage language old.Landscape [fa.MovieThumb]
        KeyArt := GetBestImage language old.KeyArt [fa.MovieBackground]
        DiscArt := GetBestImage language old.DiscArt [discs]
        AvailableArtworks := some availableArtworks }

/-- Go `(fa *Show) ToListItemArt`, for non-nil `fa` and `old`. -/
def Show.ToListItemArt (language : String) (fa : Show) (old : ListItemArt) : ListItemArt :=
  let availableArtworks : Artworks :=
    { Poster := GetMultipleShowImage language "" old.Poster [fa.TVPoster]
      Banner := GetMultipleShowImage language "" old.Banner [fa.TVBanner]
      FanArt := GetMultipleShowImage language "" old.FanArt [fa.ShowBackground]
      ClearArt := GetMultipleShowImage language "" old.ClearArt [fa.HDClearArt, fa.ClearArt]
      ClearLogo := GetMultipleShowImage language "" old.ClearLogo [fa.HdtvLogo, fa.ClearLogo]
      Landscape := GetMultipleShowImage language "" old.Landscape [fa.TVThumb]
      KeyArt := GetMultipleShowImage language "" old.KeyArt [fa.ShowBackground] }
  { Poster := GetBestShowImage language "" false old.Poster [fa.TVPoster]
    Thumbnail := old.Thumbnail
    Banner := GetBestShowImage language "" false old.Banner [fa.TVBanner]
    FanArt := GetBestShowImage language "" false old.FanArt [fa.ShowBackground]
    FanArts := GetMultipleShowImage language "" old.FanArt [fa.ShowBackground]
    ClearArt := GetBestShowImage language "" false old.ClearArt [fa.HDClearArt, fa.ClearArt]
    ClearLogo := GetBestShowImage language "" false old.ClearLogo [fa.HdtvLogo, fa.ClearLogo]
    Landscape := GetBestShowImage language "" false old.Landscape [fa.TVThumb]
    KeyArt := GetBestShowImage language "" false old.KeyArt [fa.ShowBackground]
    AvailableArtworks := some availableArtworks }

/-- Go `(fa *Show) ToSeasonListItemArt`, for non-nil `fa` and `old`. -/
def Show.ToSeasonListItemArt (language : String) (fa : Show) (season : Int)
    (old : ListItemArt) : ListItemArt :=
  let s := Itoa season
  { TvShowPoster := GetBestShowImage language "" true old.Poster [fa.SeasonPoster, fa.TVPoster]
    Poster := GetBestShowImage language s true old.Poster [fa.SeasonPoster, fa.TVPoster]
    Thumbnail := old.Thumbnail
    Banner := GetBestShowImage language s true old.Banner [fa.SeasonBanner, fa.TVBanner]
    FanArt := GetBestShowImage language s false old.FanArt [fa.ShowBackground]
    FanArts := GetMultipleShowImage language s old.FanArt [fa.ShowBackground]
    ClearArt := GetBestShowImage language s false old.ClearArt [fa.HDClearArt, fa.ClearArt]
    ClearLogo := GetBestShowImage language s false old.ClearLogo [fa.HdtvLogo, fa.ClearLogo]
    Landscape := GetBestShowImage language s true old.Landscape [fa.SeasonThumb, fa.TVThumb] }

/-- Go `(fa *Show) ToEpisodeListItemArt`, for non-nil `fa` and `old`. -/
def Show.ToEpisodeListItemArt (language : String) (fa : Show) (season : Int)
    (old : ListItemArt) : ListItemArt :=
  let s := Itoa season
  { TvShowPoster := GetBestShowImage language "" true old.Poster [fa.SeasonPoster, fa.TVPoster]
    Poster := GetBestShowImage language s true old.Poster [fa.SeasonPoster, fa.TVPoster]
    Thumbnail := old.Thumbnail
    Banner := GetBestShowImage language s true old.Banner [fa.SeasonBanner, fa.TVBanner]
    FanArt := GetBestShowImage language s false old.FanArt [fa.ShowBackground]
    FanArts := GetMultipleShowImage language s old.FanArt [fa.ShowBackground]
    ClearArt := GetBestShowImage language s false old.ClearArt [fa.HDClearArt, fa.ClearArt]
    ClearLogo := GetBestShowImage language s false old.ClearLogo [fa.HdtvLogo, fa.ClearLogo]
    Landscape := GetBestShowImage language s true old.Landscape [fa.SeasonThumb, fa.TVThumb] }

/-- A movie aggregate without any image. -/
def emptyMovie : Movie :=
  { Name := "", TmdbID := "", ImdbID := "", HDMovieClearArt := [], HDMovieLogo := [],
    MoviePoster := [], MovieBackground := [], MovieDisc := [], MovieThumb := [],
    MovieArt := [], MovieClearArt := [], MovieLogo := [], MovieBanner := [] }

/-- A movie aggregate whose only content is one nil entry in `MovieDisc`, as decoded
from `"moviedisc": [null]`. -/
def nilDiscMovie : Movie :=
  { Name := "", TmdbID := "", ImdbID := "", HDMovieClearArt := [], HDMovieLogo := [],
    MoviePoster := [], MovieBackground := [], MovieDisc := [none], MovieThumb := [],
    MovieArt := [], MovieClearArt := [], MovieLogo := [], MovieBanner := [] }

/-- A show aggregate without any image. -/
def emptyShow : Show :=
  { Name := "", TvdbID := "", HDClearArt := [], HdtvLogo := [], ClearLogo := [],
    ClearArt := [], TVPoster := [], TVBanner := [], TVThumb := [], ShowBackground := [],
    SeasonPoster := [], SeasonThumb := [], SeasonBanner := [], CharacterArt := [] }

/-- A previous artwork record with a distinct value in every slot. -/
def sampleOld : ListItemArt :=
  { Thumbnail := "t", Poster := "p", TvShowPoster := "tp", Banner := "b", FanArt := "f",
    FanArts := ["f"], ClearArt := "ca", ClearLogo := "cl", Landscape := "l", Icon := "i",
    DiscArt := "d", KeyArt := "k", AvailableArtworks := none }

/-! ## The HTTP fetch `Get` -/

/-- The package variable `retriesLeft = 3`. No statement of `fanart.go` assigns it. -/
def retriesLeft : Int := 3

/-- The errors `Get` handles: a network-level error of `napping.Send`, and
`util.ErrExceeded`. -/
inductive GoError where
  | network
  | errExceeded
  deriving DecidableEq

/-- A `napping.Response` as far as `fanart.go` reads it: the HTTP status and the
body that `Unmarshal` decodes. -/
structure Response where
  Status : Int
  Body : String
  deriving DecidableEq

/-- What one `napping.Send` gives: an error (with whatever response pointer comes
with it), or a response with a nil error. -/
inductive SendResult where
  | failed (resp : Option Response)
  | answered (resp : Response)
  deriving DecidableEq

/-- The world around `Get`: how many `napping.Send` calls have been issued and how
many times `rl.CoolDown` has been triggered. -/
structure Net where
  sends : Nat
  coolDowns : Nat
  deriving DecidableEq

/-- The named results `resp, err` of `Get`. -/
structure GetResult where
  resp : Option Response
  err : Option GoError
  deriving DecidableEq

/-- The function literal that `Get` passes to `rl.Call` (lines 113-126). It assigns
the named results of `Get` and returns an error value to the limiter. `upstream n` is
the outcome of the send number `n`, `recGet` is the recursive call `Get(endPoint,
params)`, `none` when that call does not return. -/
def getClosure (upstream : Nat → SendResult) (recGet : Net → Option (GetResult × Net))
    (st : Net) : Option ((GetResult × Option GoError) × Net) :=
  match upstream st.sends with
  | SendResult.failed resp =>
    some ((⟨resp, some GoError.network⟩, some GoError.network), ⟨st.sends + 1, st.coolDowns⟩)
  | SendResult.answered resp =>
    if resp.Status = 429 then
      some ((⟨some resp, none⟩, some GoError.errExceeded), ⟨st.sends + 1, st.coolDowns + 1⟩)
    else if resp.Status = 403 ∧ retriesLeft > 0 then
      match recGet ⟨st.sends + 1, st.coolDowns⟩ with
      | none => none
      | some (r, st') => some ((r, none), st')
    else some ((⟨some resp, none⟩, none), ⟨st.sends + 1, st.coolDowns⟩)

/-- Modelled from the spec: `util.RateLimiter.Call`, which is not under `src/`.
`Call(fn)` executes `fn` under a capacity gate and does not retry the call itself; the
gate only affects timing, so the model runs `fn` once. -/
def rlCall (fn : Net → Option ((GetResult × Option GoError) × Net)) (st : Net) :
    Option ((GetResult × Option GoError) × Net) :=
  fn st

/-- Go `Get`. The fuel bounds the depth of the recursion `Get` → closure → `Get`;
`none` means the fuel ran out. The statement `rl.Call(...)` drops what `Call` and the
closure return; `Get` returns its named results. -/
def Get (upstream : Nat → SendResult) : Nat → Net → Option (GetResult × Net)
  | 0, _ => none
  | fuel + 1, st =>
    match rlCall (getClosure upstream (Get upstream fuel)) st with
    | none => none
    | some ((r, _), st') => some (r, st')

/-- An upstream that answers 403 to the first `k` sends and 200 afterwards. -/
def upstream403Then200 (k : Nat) (n : Nat) : SendResult :=
  if n < k then SendResult.answered ⟨403, ""⟩ else SendResult.answered ⟨200, "ok"⟩

/-- An upstream that answers 403 to every send. -/
def upstreamAlways403 (_ : Nat) : SendResult := SendResult.answered ⟨403, ""⟩

/-- An upstream that answers 429 to every send. -/
def upstreamAlways429 (_ : Nat) : SendResult := SendResult.answered ⟨429, "slow down"⟩

/-- A show list with the season field projected away: every non-nil entry becomes
its embedded `Image`, nil entries stay nil. -/
def dropSeason (l : List (Option ShowImage)) : List (Option Image) :=
  l.map (Option.map ShowImage.toImage)

/-! ## The cached fetches `GetMovie` and `GetShow` -/

/-- Modelled from the spec: the cache store (`cache.NewDBStore`, its `Get` and
`Set`), which is not under `src/`. A key either holds a stored value or is a miss;
`Get(key, &out)` writes the stored value to `out` and returns a nil error on a hit,
and returns an error and leaves `out` untouched on a miss. Expiry is not modelled: an
expired entry is a miss. The stored value is the pointer passed to `Set`. -/
abbrev CacheStore (α : Type) := String → Option (Option α)

/-- Modelled from the spec: `Set(key, value, ttl)` of the cache store, which is not
under `src/`: the value is stored under the key, the other keys are untouched. -/
def CacheStore.Set {α : Type} (cache : CacheStore α) (key : String) (value : Option α) :
    CacheStore α :=
  Function.update cache key (some value)

/-- What a call of `GetMovie` or `GetShow` leaves behind: the returned pointer, the
cache and the state of the network. -/
structure Fetched (α : Type) where
  value : Option α
  cache : CacheStore α
  net : Net

/-- Go `GetMovie`. `key` is `fmt.Sprintf(cache.FanartMovieByIDKey, ·)`, whose format
constant is not under `src/`; `unmarshal resp` is what `resp.Unmarshal(&movie)` leaves
in `movie` and whether it returned an error. The result is `none` when `Get` does not
return (and for `Unmarshal` on a nil response, which `Get` never returns with a nil
error). -/
def GetMovie (key : Int → String) (unmarshal : Response → Option Movie × Bool)
    (upstream : Nat → SendResult) (fuel : Nat) (tmdbID : Int) (cache : CacheStore Movie)
    (st : Net) : Option (Fetched Movie) :=
  if tmdbID = 0 then some ⟨none, cache, st⟩
  else
    match cache (key tmdbID) with
    | some movie => some ⟨movie, cache, st⟩
    | none =>
      match Get upstream fuel st with
      | none => none
      | some (r, st') =>
        if r.err ≠ none then some ⟨none, cache, st'⟩
        else
          match r.resp with
          | none => none
          | some resp =>
            if (unmarshal resp).2 = true then some ⟨(unmarshal resp).1, cache, st'⟩
            else
              some ⟨(unmarshal resp).1,
                CacheStore.Set cache (key tmdbID) (unmarshal resp).1, st'⟩

/-- Go `GetShow`, the same function as `GetMovie` for the show aggregate, with
`key` for `fmt.Sprintf(cache.FanartShowByIDKey, ·)`. -/
def GetShow (key : Int → String) (unmarshal : Response → Option Show × Bool)
    (upstream : Nat → SendResult) (fuel : Nat) (tvdbID : Int) (cache : CacheStore Show)
    (st : Net) : Option (Fetched Show) :=
  if tvdbID = 0 then some ⟨none, cache, st⟩
  else
    match cache (key tvdbID) with
    | some show_ => some ⟨show_, cache, st⟩
    | none =>
      match Get upstream fuel st with
      | none => none
      | some (r, st') =>
        if r.err ≠ none then some ⟨none, cache, st'⟩
        else
          match r.resp with
          | none => none
          | some resp =>
            if (unmarshal resp).2 = true then some ⟨(unmarshal resp).1, cache, st'⟩
            else
              some ⟨(unmarshal resp).1,
                CacheStore.Set cache (key tvdbID) (unmarshal resp).1, st'⟩

/-- A cache without any entry. -/
def emptyCache (α : Type) : CacheStore α := fun _ => none

/-- A cache key built from the numeric ID. -/
def sampleKey (id : Int) : String := "fanart." ++ Itoa id

/-- An upstream that answers every send with status 429 and the JSON object `{}` as
body. -/
def upstream429Object (_ : Nat) : SendResult := SendResult.answered ⟨429, "\x7b\x7d"⟩

/-- A decoder that agrees with `encoding/json` on the body `{}`, which decodes into
the aggregate with all fields at their zero value without error; any other body is
treated as a decode error that leaves the pointer nil. -/
def decodeObject {α : Type} (zero : α) (resp : Response) : Option α × Bool :=
  if resp.Body = "\x7b\x7d" then (some zero, false) else (none, true)

/-! ## Basic facts about the helpers -/

theorem contains_iff (s : List String) (v : String) : contains s v = true ↔ v ∈ s := by
  induction s with
  | nil => simp [contains]
  | cons a s ih =>
    by_cases h : a = v
    · simp [contains, h]
    · have h' : ¬ v = a := fun e => h e.symm
      simp [contains, h, h', ih]

theorem contains_eq_false_iff (s : List String) (v : String) :
    contains s v = false ↔ v ∉ s := by
  rw [← contains_iff]; cases contains s v <;> simp

/-! ## The inner loop of `GetBestImage` -/

/-- A list without any entry in the preferred, English or unset language leaves
the loop state untouched. -/
theorem bestScan_skip (P : String) (l : List (Option Image)) (bl : Int) (bi : String)
    (h : ∀ j, some j ∈ l → j.Lang ≠ P ∧ j.Lang ≠ "en" ∧ j.Lang ≠ "") :
    bestScan P l bl bi = Scan.cont bl bi := by
  induction l with
  | nil => rfl
  | cons a rest ih =>
    have hrest : ∀ j, some j ∈ rest → j.Lang ≠ P ∧ j.Lang ≠ "en" ∧ j.Lang ≠ "" :=
      fun j hj => h j (List.mem_cons_of_mem _ hj)
    cases a with
    | none => simpa [bestScan] using ih hrest
    | some i =>
      obtain ⟨h1, h2, h3⟩ := h i (List.mem_cons_self _ _)
      simpa [bestScan, h1, h2, h3] using ih hrest

/-- The first non-nil entry in the preferred language is returned from inside the
loop, whatever the loop state. -/
theorem bestScan_first (P : String) (l : List (Option Image)) (i : Image)
    (h : l.reduceOption.find? (fun j => decide (j.Lang = P)) = some i) (bl : Int) (bi : String) :
    bestScan P l bl bi = Scan.ret i.URL := by
  induction l generalizing bl bi with
  | nil => simp at h
  | cons a rest ih =>
    cases a with
    | none =>
      rw [List.reduceOption_cons_of_none] at h
      simpa [bestScan] using ih h bl bi
    | some j =>
      rw [List.reduceOption_cons_of_some] at h
      by_cases hj : j.Lang = P
      · simp [List.find?, hj] at h
        subst h
        simp [bestScan, hj]
      · simp [List.find?, hj] at h
        simp only [bestScan, hj, if_false]
        split
        · split <;> exact ih h _ _
        · exact ih h _ _

/-- Skipping lists that yield nothing: the outer loop continues with the rest. -/
theorem bestLoop_skip (P old : String) (pre rest : List (List (Option Image)))
    (h : ∀ l ∈ pre, ∀ j, some j ∈ l → j.Lang ≠ P ∧ j.Lang ≠ "en" ∧ j.Lang ≠ "") :
    bestLoop P old (pre ++ rest) = bestLoop P old rest := by
  induction pre with
  | nil => rfl
  | cons l pre ih =>
    have hl := bestScan_skip P l 0 "" (h l (List.mem_cons_self _ _))
    have hpre := ih (fun l' hl' => h l' (List.mem_cons_of_mem _ hl'))
    simp [bestLoop, hl, hpre]

/-! ## C1 -/

/-- C1. Exact-language short-circuit of `GetBestImage`: if no list before list `l`
contains an entry whose language is the preferred one, `"en"` or `""`, and `i` is the
first non-nil entry of `l` in the preferred language, the result is `i.URL`,
whatever the `likes` of any entry, the fallback and the later lists. -/
theorem GetBestImage_exact_language (P old : String)
    (pre post : List (List (Option Image))) (l : List (Option Image)) (i : Image)
    (hpre : ∀ l' ∈ pre, ∀ j, some j ∈ l' → j.Lang ≠ P ∧ j.Lang ≠ "en" ∧ j.Lang ≠ "")
    (hfirst : l.reduceOption.find? (fun j => decide (j.Lang = P)) = some i) :
    GetBestImage P old (pre ++ l :: post) = i.URL := by
  have hlen : (pre ++ l :: post).length ≠ 0 := by simp
  simp only [GetBestImage, hlen, if_false]
  rw [bestLoop_skip P old pre (l :: post) hpre]
  simp [bestLoop, bestScan_first P l i hfirst]

/-- C1 at the example of the specification: `[{fr,A,likes 1},{en,B,likes 99}]`
with preferred language `"fr"` gives `"A"`. -/
theorem GetBestImage_exact_language_witness :
    GetBestImage "fr" "old"
      ([] ++ [some ⟨"1", "A", "fr", "1"⟩, some ⟨"2", "B", "en", "99"⟩] :: []) = "A" :=
  GetBestImage_exact_language "fr" "old" [] []
    [some ⟨"1", "A", "fr", "1"⟩, some ⟨"2", "B", "en", "99"⟩] ⟨"1", "A", "fr", "1"⟩
    (by simp) (by decide)

/-! ## C2 and C3: popularity and list precedence -/

/-- Without an entry in the preferred language the inner loop runs to its end. The
final `bestLikes` bounds the likes of every English or unset entry, and either the
state is unchanged or `bestItem` is the URL of the first entry reaching the final
`bestLikes`, which is above the initial one. -/
theorem bestScan_popular (P : String) (l : List (Option Image)) (bl : Int) (bi : String)
    (hP : ∀ j, some j ∈ l → j.Lang ≠ P) :
    ∃ bl' bi', bestScan P l bl bi = Scan.cont bl' bi' ∧
      (∀ j, some j ∈ l → (j.Lang = "en" ∨ j.Lang = "") → likeConvert j.Likes ≤ bl') ∧
      ((bl' = bl ∧ bi' = bi) ∨
        (bl < bl' ∧ ∃ a i b, l = a ++ some i :: b ∧ (i.Lang = "en" ∨ i.Lang = "") ∧
          likeConvert i.Likes = bl' ∧ i.URL = bi' ∧
          ∀ j, some j ∈ a → (j.Lang = "en" ∨ j.Lang = "") → likeConvert j.Likes < bl')) := by
  induction l generalizing bl bi with
  | nil => exact ⟨bl, bi, rfl, by simp, Or.inl ⟨rfl, rfl⟩⟩
  | cons x rest ih =>
    have hrest : ∀ j, some j ∈ rest → j.Lang ≠ P := fun j hj => hP j (List.mem_cons_of_mem _ hj)
    cases x with
    | none =>
      obtain ⟨bl', bi', h1, h2, h3⟩ := ih bl bi hrest
      refine ⟨bl', bi', by simpa [bestScan] using h1, ?_, ?_⟩
      · intro j hj; exact h2 j (by simpa using hj)
      · rcases h3 with h3 | ⟨hlt, a, i, b, hl, hen, hlk, hurl, ha⟩
        · exact Or.inl h3
        · refine Or.inr ⟨hlt, none :: a, i, b, by simp [hl], hen, hlk, hurl, ?_⟩
          intro j hj; exact ha j (by simpa using hj)
    | some k =>
      have hk : k.Lang ≠ P := hP k (List.mem_cons_self _ _)
      by_cases hen : k.Lang = "en" ∨ k.Lang = ""
      · by_cases hgt : likeConvert k.Likes > bl
        · obtain ⟨bl', bi', h1, h2, h3⟩ := ih (likeConvert k.Likes) k.URL hrest
          have hle : likeConvert k.Likes ≤ bl' := by
            rcases h3 with h3 | h3
            · exact le_of_eq h3.1.symm
            · exact le_of_lt h3.1
          refine ⟨bl', bi', by simpa [bestScan, hk, hen, hgt] using h1, ?_, Or.inr ?_⟩
          · intro j hj hjen
            rcases List.mem_cons.1 hj with e | hj'
            · cases e; exact hle
            · exact h2 j hj' hjen
          · rcases h3 with ⟨e1, e2⟩ | ⟨hlt, a, i, b, hl, hien, hlk, hurl, ha⟩
            · refine ⟨by rw [e1]; exact hgt, [], k, rest, rfl, hen, e1.symm, e2.symm, ?_⟩
              intro j hj; simp at hj
            · refine ⟨lt_trans hgt hlt, some k :: a, i, b, by simp [hl], hien, hlk, hurl, ?_⟩
              intro j hj hjen
              rcases List.mem_cons.1 hj with e | hj'
              · cases e; exact hlt
              · exact ha j hj' hjen
        · obtain ⟨bl', bi', h1, h2, h3⟩ := ih bl bi hrest
          have hkle : likeConvert k.Likes ≤ bl := not_lt.1 hgt
          have hgt' : ¬ bl < likeConvert k.Likes := hgt
          have hble : bl ≤ bl' := by
            rcases h3 with h3 | h3
            · exact le_of_eq h3.1.symm
            · exact le_of_lt h3.1
          refine ⟨bl', bi', by simpa [bestScan, hk, hen, hgt'] using h1, ?_, ?_⟩
          · intro j hj hjen
            rcases List.mem_cons.1 hj with e | hj'
            · cases e; exact le_trans hkle hble
            · exact h2 j hj' hjen
          · rcases h3 with h3 | ⟨hlt, a, i, b, hl, hien, hlk, hurl, ha⟩
            · exact Or.inl h3
            · refine Or.inr ⟨hlt, some k :: a, i, b, by simp [hl], hien, hlk, hurl, ?_⟩
              intro j hj hjen
              rcases List.mem_cons.1 hj with e | hj'
              · cases e; exact lt_of_le_of_lt hkle hlt
              · exact ha j hj' hjen
      · obtain ⟨bl', bi', h1, h2, h3⟩ := ih bl bi hrest
        have hen1 : ¬ k.Lang = "en" := fun e => hen (Or.inl e)
        have hen2 : ¬ k.Lang = "" := fun e => hen (Or.inr e)
        refine ⟨bl', bi', by simpa [bestScan, hk, hen1, hen2] using h1, ?_, ?_⟩
        · intro j hj hjen
          rcases List.mem_cons.1 hj with e | hj'
          · cases e; exact absurd hjen hen
          · exact h2 j hj' hjen
        · rcases h3 with h3 | ⟨hlt, a, i, b, hl, hien, hlk, hurl, ha⟩
          · exact Or.inl h3
          · refine Or.inr ⟨hlt, some k :: a, i, b, by simp [hl], hien, hlk, hurl, ?_⟩
            intro j hj hjen
            rcases List.mem_cons.1 hj with e | hj'
            · cases e; exact absurd hjen hen
            · exact ha j hj' hjen

/-- A first list without preferred-language entry but with an English or unset
entry of positive likes decides the outer loop: the result is the URL of the first
entry of that list whose likes are the maximum, whatever lists follow. -/
theorem bestLoop_head_popular (P old : String) (l : List (Option Image))
    (hP : ∀ j, some j ∈ l → j.Lang ≠ P)
    (hpos : ∃ j, some j ∈ l ∧ (j.Lang = "en" ∨ j.Lang = "") ∧ 0 < likeConvert j.Likes) :
    ∃ a i b, l = a ++ some i :: b ∧ (i.Lang = "en" ∨ i.Lang = "") ∧ 0 < likeConvert i.Likes ∧
      (∀ j, some j ∈ l → (j.Lang = "en" ∨ j.Lang = "") → likeConvert j.Likes ≤ likeConvert i.Likes) ∧
      (∀ j, some j ∈ a → (j.Lang = "en" ∨ j.Lang = "") → likeConvert j.Likes < likeConvert i.Likes) ∧
      ∀ rest, bestLoop P old (l :: rest) = i.URL := by
  obtain ⟨bl', bi', h1, h2, h3⟩ := bestScan_popular P l 0 "" hP
  obtain ⟨j, hj, hjen, hjpos⟩ := hpos
  have hpos' : 0 < bl' := lt_of_lt_of_le hjpos (h2 j hj hjen)
  rcases h3 with ⟨e, _⟩ | ⟨_, a, i, b, hl, hien, hlk, hurl, ha⟩
  · exact absurd hpos' (by rw [e]; exact lt_irrefl _)
  · refine ⟨a, i, b, hl, hien, by rw [hlk]; exact hpos', ?_, ?_, ?_⟩
    · rw [hlk]; exact h2
    · rw [hlk]; exact ha
    · intro rest
      simp [bestLoop, h1, hpos', hurl]

/-- A list with neither a preferred-language entry nor an English or unset entry of
positive likes yields nothing: the outer loop goes on with the next list. -/
theorem bestLoop_head_nothing (P old : String) (l : List (Option Image))
    (rest : List (List (Option Image)))
    (hP : ∀ j, some j ∈ l → j.Lang ≠ P)
    (hnone : ∀ j, some j ∈ l → (j.Lang = "en" ∨ j.Lang = "") → likeConvert j.Likes ≤ 0) :
    bestLoop P old (l :: rest) = bestLoop P old rest := by
  obtain ⟨bl', bi', h1, _, h3⟩ := bestScan_popular P l 0 "" hP
  rcases h3 with ⟨e, _⟩ | ⟨hlt, a, i, b, hl, hien, hlk, _, _⟩
  · simp [bestLoop, h1, e]
  · have hi : some i ∈ l := by rw [hl]; simp
    have := hnone i hi hien
    rw [hlk] at this
    exact absurd hlt (not_lt.2 this)

/-- C2, as stated, fails: the single list `[{en, likes "0", X}]` has no entry in the
preferred language `"fr"` and has an English entry, yet the result is the fallback
and not the URL of an entry of the list. -/
theorem GetBestImage_popularity_counterexample :
    (∀ j : Image, some j ∈ [some (⟨"1", "X", "en", "0"⟩ : Image)] → j.Lang ≠ "fr") ∧
    (∃ j : Image, some j ∈ [some (⟨"1", "X", "en", "0"⟩ : Image)] ∧ (j.Lang = "en" ∨ j.Lang = "")) ∧
    GetBestImage "fr" "old" [[some ⟨"1", "X", "en", "0"⟩]] = "old" ∧
    ¬ ∃ i : Image, some i ∈ [some (⟨"1", "X", "en", "0"⟩ : Image)] ∧
        GetBestImage "fr" "old" [[some ⟨"1", "X", "en", "0"⟩]] = i.URL := by
  refine ⟨?_, ?_, by decide, ?_⟩
  · intro j hj
    simp at hj
    subst hj
    decide
  · exact ⟨⟨"1", "X", "en", "0"⟩, by simp, Or.inl rfl⟩
  · rintro ⟨i, hi, h⟩
    simp at hi
    subst hi
    revert h
    decide

/-- C2, amended. Popularity selection of `GetBestImage` on a single list without
preferred-language entry that has an English or unset entry of positive likes: the
result is the URL of the first English or unset entry whose likes are positive and
the maximum over all such entries. -/
theorem GetBestImage_popularity (P old : String) (l : List (Option Image))
    (hP : ∀ j, some j ∈ l → j.Lang ≠ P)
    (hpos : ∃ j, some j ∈ l ∧ (j.Lang = "en" ∨ j.Lang = "") ∧ 0 < likeConvert j.Likes) :
    ∃ a i b, l = a ++ some i :: b ∧ (i.Lang = "en" ∨ i.Lang = "") ∧ 0 < likeConvert i.Likes ∧
      (∀ j, some j ∈ l → (j.Lang = "en" ∨ j.Lang = "") → likeConvert j.Likes ≤ likeConvert i.Likes) ∧
      (∀ j, some j ∈ a → (j.Lang = "en" ∨ j.Lang = "") → likeConvert j.Likes < likeConvert i.Likes) ∧
      GetBestImage P old [l] = i.URL := by
  obtain ⟨a, i, b, hl, hen, hp, hmax, hfirst, hres⟩ := bestLoop_head_popular P old l hP hpos
  exact ⟨a, i, b, hl, hen, hp, hmax, hfirst, by simp [GetBestImage, hres []]⟩

/-- C2, amended, applied to the example of the specification with preferred
language `"fr"`. -/
theorem GetBestImage_popularity_witness :
    ∃ a i b, popularityExample = a ++ some i :: b ∧ (i.Lang = "en" ∨ i.Lang = "") ∧
      0 < likeConvert i.Likes ∧
      (∀ j, some j ∈ popularityExample → (j.Lang = "en" ∨ j.Lang = "") →
        likeConvert j.Likes ≤ likeConvert i.Likes) ∧
      (∀ j, some j ∈ a → (j.Lang = "en" ∨ j.Lang = "") →
        likeConvert j.Likes < likeConvert i.Likes) ∧
      GetBestImage "fr" "old" [popularityExample] = i.URL :=
  GetBestImage_popularity "fr" "old" popularityExample
    (by
      intro j hj
      simp [popularityExample] at hj
      rcases hj with e | e <;> subst e <;> decide)
    ⟨⟨"2", "Y", "", "7"⟩, by simp [popularityExample], Or.inr rfl, by decide⟩

/-- C3. List precedence of `GetBestImage`: if `L1` has no entry in the preferred
language but has an English or unset entry with positive likes, the result for
`L1, L2` is the result for `L1` alone and is the URL of an English or unset entry
of `L1`, whatever `L2` contains. -/
theorem GetBestImage_list_precedence (P old : String) (L1 L2 : List (Option Image))
    (hP : ∀ j, some j ∈ L1 → j.Lang ≠ P)
    (hpos : ∃ j, some j ∈ L1 ∧ (j.Lang = "en" ∨ j.Lang = "") ∧ 0 < likeConvert j.Likes) :
    GetBestImage P old [L1, L2] = GetBestImage P old [L1] ∧
      ∃ i, some i ∈ L1 ∧ (i.Lang = "en" ∨ i.Lang = "") ∧
        GetBestImage P old [L1, L2] = i.URL := by
  obtain ⟨a, i, b, hl, hen, _, _, _, hres⟩ := bestLoop_head_popular P old L1 hP hpos
  have h2 : GetBestImage P old [L1, L2] = i.URL := by simp [GetBestImage, hres [L2]]
  have h1 : GetBestImage P old [L1] = i.URL := by simp [GetBestImage, hres []]
  exact ⟨h2.trans h1.symm, i, by rw [hl]; simp, hen, h2⟩

/-- C3 at a concrete input: the second list holds a preferred-language entry and an
entry with more likes, and the result still comes from the first list. -/
theorem GetBestImage_list_precedence_witness :
    GetBestImage "fr" "old"
        [[some ⟨"1", "X", "en", "3"⟩], [some ⟨"2", "F", "fr", "9"⟩, some ⟨"3", "E", "en", "50"⟩]] =
      GetBestImage "fr" "old" [[some ⟨"1", "X", "en", "3"⟩]] ∧
    ∃ i : Image, some i ∈ [some (⟨"1", "X", "en", "3"⟩ : Image)] ∧ (i.Lang = "en" ∨ i.Lang = "") ∧
      GetBestImage "fr" "old"
        [[some ⟨"1", "X", "en", "3"⟩], [some ⟨"2", "F", "fr", "9"⟩, some ⟨"3", "E", "en", "50"⟩]] =
      i.URL :=
  GetBestImage_list_precedence "fr" "old" [some ⟨"1", "X", "en", "3"⟩]
    [some ⟨"2", "F", "fr", "9"⟩, some ⟨"3", "E", "en", "50"⟩]
    (by
      intro j hj
      simp at hj
      subst hj
      decide)
    ⟨⟨"1", "X", "en", "3"⟩, by simp, Or.inl rfl, by decide⟩

/-- The second list is consulted only when the first yields nothing: with neither a
preferred-language entry nor an English or unset entry of positive likes in `L1`,
the result is that of `L2` alone. -/
theorem GetBestImage_second_list (P old : String) (L1 L2 : List (Option Image))
    (hP : ∀ j, some j ∈ L1 → j.Lang ≠ P)
    (hnone : ∀ j, some j ∈ L1 → (j.Lang = "en" ∨ j.Lang = "") → likeConvert j.Likes ≤ 0) :
    GetBestImage P old [L1, L2] = GetBestImage P old [L2] := by
  simp [GetBestImage, bestLoop_head_nothing P old L1 [L2] hP hnone]

/-! ## C4 and C5: empty lists and no lists -/

theorem bestLoop_all_empty (P old : String) (lists : List (List (Option Image)))
    (h : ∀ l ∈ lists, l = []) : bestLoop P old lists = old := by
  induction lists with
  | nil => rfl
  | cons l ls ih =>
    have hl : l = [] := h l (List.mem_cons_self _ _)
    subst hl
    simpa [bestLoop, bestScan] using ih (fun l' hl' => h l' (List.mem_cons_of_mem _ hl'))

theorem bestShowLoop_all_empty (P season : String) (isStrict : Bool) (old : String)
    (lists : List (List (Option ShowImage))) (idx : Nat)
    (h : ∀ l ∈ lists, l = []) : bestShowLoop P season isStrict old lists idx = old := by
  induction lists generalizing idx with
  | nil => rfl
  | cons l ls ih =>
    have hl : l = [] := h l (List.mem_cons_self _ _)
    subst hl
    simpa [bestShowLoop, bestShowScan] using
      ih (idx + 1) (fun l' hl' => h l' (List.mem_cons_of_mem _ hl'))

theorem multiLoop_all_empty (P : String) (lists : List (List (Option Image)))
    (res : List String) (h : ∀ l ∈ lists, l = []) : multiLoop P lists res = res := by
  induction lists with
  | nil => rfl
  | cons l ls ih =>
    have hl : l = [] := h l (List.mem_cons_self _ _)
    subst hl
    simpa [multiLoop, multiScan] using ih (fun l' hl' => h l' (List.mem_cons_of_mem _ hl'))

theorem multiShowLoop_all_empty (P season old : String)
    (lists : List (List (Option ShowImage))) (h : ∀ l ∈ lists, l = []) :
    multiShowLoop P season old lists [] = [old] := by
  induction lists with
  | nil => rfl
  | cons l ls ih =>
    have hl : l = [] := h l (List.mem_cons_self _ _)
    subst hl
    simpa [multiShowLoop, multiShowScan] using
      ih (fun l' hl' => h l' (List.mem_cons_of_mem _ hl'))

/-- C4. Empty lists give the fallback: when one or more lists are supplied and all
of them are empty, `GetBestImage` and `GetBestShowImage` return `old`, and
`GetMultipleImage` and `GetMultipleShowImage` return `[old]`, for every preferred
language, season and strict flag. -/
theorem empty_lists_give_fallback (P season : String) (isStrict : Bool) (old : String)
    (lists : List (List (Option Image))) (showLists : List (List (Option ShowImage)))
    (hne : lists ≠ []) (hempty : ∀ l ∈ lists, l = [])
    (hne' : showLists ≠ []) (hempty' : ∀ l ∈ showLists, l = []) :
    GetBestImage P old lists = old ∧
    GetBestShowImage P season isStrict old showLists = old ∧
    GetMultipleImage P old lists = [old] ∧
    GetMultipleShowImage P season old showLists = [old] := by
  have hlen : lists.length ≠ 0 := fun e => hne (List.length_eq_zero.1 e)
  have hlen' : showLists.length ≠ 0 := fun e => hne' (List.length_eq_zero.1 e)
  refine ⟨?_, ?_, ?_, ?_⟩
  · simp [GetBestImage, hlen, bestLoop_all_empty P old lists hempty]
  · simp [GetBestShowImage, hlen', bestShowLoop_all_empty P season isStrict old showLists 0 hempty']
  · simp [GetMultipleImage, hlen, multiLoop_all_empty P lists [] hempty]
  · simp [GetMultipleShowImage, hlen', multiShowLoop_all_empty P season old showLists hempty']

/-- C4 at two empty lists, season `"3"`, strict mode. -/
theorem empty_lists_give_fallback_witness :
    GetBestImage "fr" "old" [[], []] = "old" ∧
    GetBestShowImage "fr" "3" true "old" [[], []] = "old" ∧
    GetMultipleImage "fr" "old" [[], []] = ["old"] ∧
    GetMultipleShowImage "fr" "3" "old" [[], []] = ["old"] :=
  empty_lists_give_fallback "fr" "3" true "old" [[], []] [[], []]
    (by simp) (by simp) (by simp) (by simp)

/-- C5. No lists supplied: `GetBestImage` and `GetBestShowImage` return the empty
string, not `old`, while `GetMultipleImage` and `GetMultipleShowImage` return
`[old]`, for every preferred language, fallback, season and strict flag. -/
theorem no_lists_supplied (P season : String) (isStrict : Bool) (old : String) :
    GetBestImage P old [] = "" ∧
    GetBestShowImage P season isStrict old [] = "" ∧
    GetMultipleImage P old [] = [old] ∧
    GetMultipleShowImage P season old [] = [old] :=
  ⟨rfl, rfl, rfl, rfl⟩

/-! ## C6 and C7: the multiple-image selectors -/

theorem contains_append_self (res : List String) (u : String) :
    contains (res ++ [u]) u = true := by
  rw [contains_iff]; simp

/-- The loop body appends the URL of an acceptable entry once, if it is new. -/
theorem multiStep_eq (P : String) (res : List String) (i : Image) :
    multiStep P res i =
      if i.Lang = P ∨ i.Lang = "en" ∨ i.Lang = "" then appendNew res i.URL else res := by
  by_cases hP : i.Lang = P <;> by_cases hen : i.Lang = "en" ∨ i.Lang = "" <;>
    by_cases hc : contains res i.URL = false <;>
    simp [multiStep, appendNew, hP, hen, hc, contains_append_self]

theorem acceptableURLs_nil (P : String) : acceptableURLs P [] = [] := rfl

theorem acceptableURLs_none (P : String) (l : List (Option Image)) :
    acceptableURLs P (none :: l) = acceptableURLs P l := by
  simp [acceptableURLs]

theorem acceptableURLs_some (P : String) (i : Image) (l : List (Option Image)) :
    acceptableURLs P (some i :: l) =
      if i.Lang = P ∨ i.Lang = "en" ∨ i.Lang = "" then i.URL :: acceptableURLs P l
      else acceptableURLs P l := by
  by_cases h : i.Lang = P ∨ i.Lang = "en" ∨ i.Lang = ""
  · simp [acceptableURLs, List.reduceOption_cons_of_some, List.filter_cons, h]
  · simp [acceptableURLs, List.reduceOption_cons_of_some, List.filter_cons, h]

theorem acceptableURLs_append (P : String) (l m : List (Option Image)) :
    acceptableURLs P (l ++ m) = acceptableURLs P l ++ acceptableURLs P m := by
  simp [acceptableURLs, List.reduceOption_append]

theorem mem_acceptableURLs (P : String) (l : List (Option Image)) (u : String) :
    u ∈ acceptableURLs P l ↔
      ∃ i, some i ∈ l ∧ (i.Lang = P ∨ i.Lang = "en" ∨ i.Lang = "") ∧ i.URL = u := by
  simp [acceptableURLs, List.reduceOption_mem_iff, and_assoc]

/-- The inner loop is a left fold of the guarded append over the acceptable URLs. -/
theorem multiScan_eq_foldl (P : String) (l : List (Option Image)) (res : List String) :
    multiScan P l res = (acceptableURLs P l).foldl appendNew res := by
  induction l generalizing res with
  | nil => rfl
  | cons x rest ih =>
    cases x with
    | none => simp [multiScan, acceptableURLs_none, ih]
    | some i =>
      by_cases h : i.Lang = P ∨ i.Lang = "en" ∨ i.Lang = ""
      · simp [multiScan, acceptableURLs_some, multiStep_eq, h, ih]
      · simp [multiScan, acceptableURLs_some, multiStep_eq, h, ih]

/-- The outer loop is the same fold over the concatenation of the lists. -/
theorem multiLoop_eq_foldl (P : String) (lists : List (List (Option Image)))
    (res : List String) :
    multiLoop P lists res = (acceptableURLs P lists.flatten).foldl appendNew res := by
  induction lists generalizing res with
  | nil => rfl
  | cons l ls ih =>
    simp [multiLoop, ih, multiScan_eq_foldl, acceptableURLs_append, List.foldl_append]

/-- Folding the guarded append over `us` appends the first occurrences of the
elements of `us` that are not yet in `res`. -/
theorem foldl_appendNew (us res : List String) :
    us.foldl appendNew res = res ++ (removeRepeats us).filter (fun y => decide (y ∉ res)) := by
  induction us generalizing res with
  | nil => simp [removeRepeats]
  | cons u us ih =>
    by_cases hu : u ∈ res
    · have hc : contains res u = true := (contains_iff res u).2 hu
      simp only [List.foldl_cons, appendNew, hc, removeRepeats, List.filter_cons, ih]
      simp only [hu, not_true_eq_false, decide_False, List.filter_filter]
      simp only [Bool.false_eq_true, if_false]
      congr 1
      apply List.filter_congr
      intro y _
      by_cases hy : y ∈ res
      · simp [hy]
      · have : y ≠ u := fun e => hy (e ▸ hu)
        simp [hy, this]
    · have hc : contains res u = false := (contains_eq_false_iff res u).2 hu
      simp only [List.foldl_cons, appendNew, hc, removeRepeats, List.filter_cons, ih]
      simp only [hu, not_false_eq_true, decide_True, List.filter_filter, if_true]
      simp only [List.append_assoc, List.singleton_append]
      congr 2
      apply List.filter_congr
      intro y _
      by_cases hy : y ∈ res <;> by_cases hyu : y = u <;> simp [hy, hyu]

theorem mem_foldl_appendNew (us res : List String) (y : String) :
    y ∈ us.foldl appendNew res ↔ y ∈ res ∨ y ∈ us := by
  induction us generalizing res with
  | nil => simp
  | cons u us ih =>
    rw [List.foldl_cons, ih]
    by_cases hc : contains res u = false
    · simp [appendNew, hc, or_assoc]
    · have hu : u ∈ res := by
        rw [← contains_iff]; simpa using hc
      simp only [appendNew, hc, if_false, List.mem_cons]
      constructor
      · rintro (h | h)
        · exact Or.inl h
        · exact Or.inr (Or.inr h)
      · rintro (h | h | h)
        · exact Or.inl h
        · exact Or.inl (h ▸ hu)
        · exact Or.inr h

/-- C6. `GetMultipleImage` equals its reference definition, for every preferred
language, fallback and sequence of lists (the empty sequence included): the URLs of
the non-nil entries whose language is the preferred one, `"en"` or `""`, in discovery
order over the concatenation of the lists, each repeat removed after its first
occurrence; `[old]` when there is no such URL. -/
theorem GetMultipleImage_eq_ref (P old : String) (lists : List (List (Option Image))) :
    GetMultipleImage P old lists = GetMultipleImageRef P old lists := by
  have hloop : multiLoop P lists [] = removeRepeats (acceptableURLs P lists.flatten) := by
    rw [multiLoop_eq_foldl, foldl_appendNew]; simp
  cases lists with
  | nil => simp [GetMultipleImage, GetMultipleImageRef, acceptableURLs_nil, removeRepeats]
  | cons l ls =>
    simp only [GetMultipleImage, GetMultipleImageRef, hloop]
    generalize removeRepeats (acceptableURLs P (l :: ls).flatten) = C
    cases C <;> simp

theorem appendNew_nodup (res : List String) (u : String) (h : res.Nodup) :
    (appendNew res u).Nodup := by
  by_cases hc : contains res u = false
  · have hu : u ∉ res := (contains_eq_false_iff res u).1 hc
    simp only [appendNew, hc, if_true]
    rw [List.nodup_append]
    refine ⟨h, List.nodup_singleton u, ?_⟩
    intro y hy hy'
    rw [List.mem_singleton] at hy'
    exact hu (hy' ▸ hy)
  · simpa [appendNew, hc] using h

theorem multiStep_nodup (P : String) (res : List String) (i : Image) (h : res.Nodup) :
    (multiStep P res i).Nodup := by
  rw [multiStep_eq]
  split
  · exact appendNew_nodup res i.URL h
  · exact h

theorem multiScan_nodup (P : String) (l : List (Option Image)) (res : List String)
    (h : res.Nodup) : (multiScan P l res).Nodup := by
  induction l generalizing res with
  | nil => exact h
  | cons x rest ih =>
    cases x with
    | none => exact ih res h
    | some i => exact ih _ (multiStep_nodup P res i h)

theorem multiLoop_nodup (P : String) (lists : List (List (Option Image)))
    (res : List String) (h : res.Nodup) : (multiLoop P lists res).Nodup := by
  induction lists generalizing res with
  | nil => exact h
  | cons l ls ih => exact ih _ (multiScan_nodup P l res h)

theorem multiShowScan_nodup (P : String) (qual : ShowImage → Bool)
    (l : List (Option ShowImage)) (res : List String) (h : res.Nodup) :
    (multiShowScan P qual l res).Nodup := by
  induction l generalizing res with
  | nil => exact h
  | cons x rest ih =>
    cases x with
    | none => exact ih res h
    | some i =>
      simp only [multiShowScan]
      split
      · exact ih _ (multiStep_nodup P res i.toImage h)
      · exact ih res h

theorem multiShowLoop_nodup (P season old : String)
    (lists : List (List (Option ShowImage))) (res : List String) (h : res.Nodup) :
    (multiShowLoop P season old lists res).Nodup := by
  induction lists generalizing res with
  | nil =>
    simp only [multiShowLoop]
    split
    · exact h
    · exact List.nodup_singleton old
  | cons l ls ih =>
    simp only [multiShowLoop]
    split
    · exact multiShowScan_nodup P _ l res h
    · exact ih _ (multiShowScan_nodup P _ l _ (multiShowScan_nodup P _ l res h))

/-- Every acceptable entry of a supplied list has its URL in the result of
`GetMultipleImage`. -/
theorem mem_GetMultipleImage (P old : String) (lists : List (List (Option Image)))
    (l : List (Option Image)) (hl : l ∈ lists) (i : Image) (hi : some i ∈ l)
    (hq : i.Lang = P ∨ i.Lang = "en" ∨ i.Lang = "") :
    i.URL ∈ GetMultipleImage P old lists := by
  have hmem : i.URL ∈ multiLoop P lists [] := by
    rw [multiLoop_eq_foldl, mem_foldl_appendNew, mem_acceptableURLs]
    exact Or.inr ⟨i, List.mem_flatten.2 ⟨l, hl, hi⟩, hq, rfl⟩
  have hlen : lists.length ≠ 0 := fun e => by
    rw [List.length_eq_zero.1 e] at hl; simp at hl
  have hpos : 0 < (multiLoop P lists []).length := List.length_pos_of_mem hmem
  simpa [GetMultipleImage, hlen, hpos] using hmem

/-- Concrete inputs of `GetMultipleImage`: preferred language `"en"`, the URL `"U"`
carried by two English entries and `"V"` by one; each occurs once, in the order of
discovery. -/
theorem multiple_image_dedup_examples :
    GetMultipleImage "en" "old"
      [[some ⟨"1", "U", "en", "1"⟩, some ⟨"2", "V", "", "2"⟩], [some ⟨"3", "U", "en", "3"⟩]] =
      ["U", "V"] ∧
    GetMultipleImage "fr" "old"
      [[some ⟨"1", "U", "en", "1"⟩, some ⟨"2", "W", "fr", "2"⟩, some ⟨"3", "U", "fr", "3"⟩]] =
      ["U", "W"] := by
  constructor <;> decide

/-! ## The inner loops of `GetBestShowImage` -/

theorem qualified_none (qual : ShowImage → Bool) (l : List (Option ShowImage)) :
    qualified qual (none :: l) = qualified qual l := by
  simp [qualified]

theorem qualified_some (qual : ShowImage → Bool) (i : ShowImage) (l : List (Option ShowImage)) :
    qualified qual (some i :: l) =
      if qual i = true then some i.toImage :: qualified qual l else qualified qual l := by
  by_cases h : qual i = true
  · simp [qualified, List.reduceOption_cons_of_some, List.filter_cons, h]
  · simp [qualified, List.reduceOption_cons_of_some, List.filter_cons, h]

theorem mem_qualified (qual : ShowImage → Bool) (l : List (Option ShowImage)) (k : Image) :
    some k ∈ qualified qual l ↔ ∃ j, some j ∈ l ∧ qual j = true ∧ j.toImage = k := by
  simp [qualified, List.reduceOption_mem_iff, and_assoc]

theorem qualified_eq_nil (qual : ShowImage → Bool) (l : List (Option ShowImage))
    (h : ∀ j, some j ∈ l → qual j = false) : qualified qual l = [] := by
  induction l with
  | nil => rfl
  | cons x rest ih =>
    have hrest := ih (fun j hj => h j (List.mem_cons_of_mem _ hj))
    cases x with
    | none => rw [qualified_none, hrest]
    | some i => simp [qualified_some, h i (List.mem_cons_self _ _), hrest]

/-- An inner loop of `GetBestShowImage` is the inner loop of `GetBestImage` on the
entries that pass the season condition. -/
theorem bestShowScan_eq (P : String) (qual : ShowImage → Bool) (l : List (Option ShowImage))
    (bl : Int) (bi : String) :
    bestShowScan P qual l bl bi = bestScan P (qualified qual l) bl bi := by
  induction l generalizing bl bi with
  | nil => rfl
  | cons x rest ih =>
    cases x with
    | none => simp [bestShowScan, qualified_none, ih]
    | some i =>
      by_cases hq : qual i = true
      · simp only [bestShowScan, qualified_some, hq, if_true, bestScan, ih]
      · simp [bestShowScan, qualified_some, hq, ih]

/-- If some entry is in the preferred language, the loop returns the URL of such an
entry, whatever the loop state. -/
theorem bestScan_ret_of_mem (P : String) (l : List (Option Image))
    (h : ∃ j, some j ∈ l ∧ j.Lang = P) :
    ∃ i, some i ∈ l ∧ i.Lang = P ∧ ∀ bl bi, bestScan P l bl bi = Scan.ret i.URL := by
  induction l with
  | nil => obtain ⟨j, hj, _⟩ := h; simp at hj
  | cons x rest ih =>
    cases x with
    | none =>
      obtain ⟨j, hj, hjP⟩ := h
      obtain ⟨i, hi, hiP, hret⟩ := ih ⟨j, by simpa using hj, hjP⟩
      exact ⟨i, List.mem_cons_of_mem _ hi, hiP, fun bl bi => by simpa [bestScan] using hret bl bi⟩
    | some k =>
      by_cases hk : k.Lang = P
      · exact ⟨k, List.mem_cons_self _ _, hk, fun bl bi => by simp [bestScan, hk]⟩
      · obtain ⟨j, hj, hjP⟩ := h
        have hj' : some j ∈ rest := by
          rcases List.mem_cons.1 hj with e | hj'
          · cases e; exact absurd hjP hk
          · exact hj'
        obtain ⟨i, hi, hiP, hret⟩ := ih ⟨j, hj', hjP⟩
        refine ⟨i, List.mem_cons_of_mem _ hi, hiP, fun bl bi => ?_⟩
        simp only [bestScan, hk, if_false]
        split
        · split <;> exact hret _ _
        · exact hret _ _

/-- Without preferred-language entry and with an English or unset entry of positive
likes, the loop started at `0, ""` ends with positive `bestLikes` and the URL of an
English or unset entry of the list. -/
theorem bestScan_popular_pos (P : String) (l : List (Option Image))
    (hP : ∀ j, some j ∈ l → j.Lang ≠ P)
    (hpos : ∃ j, some j ∈ l ∧ (j.Lang = "en" ∨ j.Lang = "") ∧ 0 < likeConvert j.Likes) :
    ∃ i, some i ∈ l ∧ (i.Lang = "en" ∨ i.Lang = "") ∧ 0 < likeConvert i.Likes ∧
      bestScan P l 0 "" = Scan.cont (likeConvert i.Likes) i.URL := by
  obtain ⟨bl', bi', h1, h2, h3⟩ := bestScan_popular P l 0 "" hP
  obtain ⟨j, hj, hjen, hjpos⟩ := hpos
  have hpos' : 0 < bl' := lt_of_lt_of_le hjpos (h2 j hj hjen)
  rcases h3 with ⟨e, _⟩ | ⟨_, a, i, b, hl, hien, hlk, hurl, _⟩
  · exact absurd hpos' (by rw [e]; exact lt_irrefl _)
  · exact ⟨i, by rw [hl]; simp, hien, by rw [hlk]; exact hpos', by rw [h1, hlk, hurl]⟩

/-- Without preferred-language entry and without an English or unset entry of
positive likes, the loop started at `0, ""` ends in the same state. -/
theorem bestScan_nothing (P : String) (l : List (Option Image))
    (hP : ∀ j, some j ∈ l → j.Lang ≠ P)
    (hnone : ∀ j, some j ∈ l → (j.Lang = "en" ∨ j.Lang = "") → likeConvert j.Likes ≤ 0) :
    bestScan P l 0 "" = Scan.cont 0 "" := by
  obtain ⟨bl', bi', h1, _, h3⟩ := bestScan_popular P l 0 "" hP
  rcases h3 with ⟨e1, e2⟩ | ⟨hlt, a, i, b, hl, hien, hlk, _, _⟩
  · rw [h1, e1, e2]
  · have hi : some i ∈ l := by rw [hl]; simp
    have := hnone i hi hien
    rw [hlk] at this
    exact absurd hlt (not_lt.2 this)

/-! ## C8: strict mode and season zero -/

/-- C8. Strict mode forbids the season-zero fallback on the first list: for a query
season other than `""` and `"0"` and a single list all of whose entries have season
`"0"`, `GetBestShowImage` in strict mode returns the fallback `old`, whatever the
language and likes of the entries. -/
theorem GetBestShowImage_strict_season_zero (P s old : String) (l : List (Option ShowImage))
    (hs : s ≠ "") (hs0 : s ≠ "0") (h : ∀ j, some j ∈ l → j.Season = "0") :
    GetBestShowImage P s true old [l] = old := by
  have hs0' : ¬ "0" = s := fun e => hs0 e.symm
  have h1 : qualified (tier1 s) l = [] :=
    qualified_eq_nil _ l (fun j hj => by simp [tier1, hs, h j hj, hs0'])
  have h2 : qualified (tier2 s true 1) l = [] :=
    qualified_eq_nil _ l (fun j hj => by simp [tier2, hs, h j hj])
  simp [GetBestShowImage, bestShowLoop, bestShowScan_eq, h1, h2, bestScan]

/-- C8 at the example of the specification: `[{season "0", url "Z"}]` with query
season `"2"` gives the fallback, not `"Z"`. -/
theorem GetBestShowImage_strict_season_zero_witness :
    GetBestShowImage "fr" "2" true "old" [[some ⟨⟨"1", "Z", "en", "5"⟩, "0"⟩]] = "old" :=
  GetBestShowImage_strict_season_zero "fr" "2" "old" [some ⟨⟨"1", "Z", "en", "5"⟩, "0"⟩]
    (by decide) (by decide)
    (by
      intro j hj
      simp at hj
      subst hj
      rfl)

/-! ## C9: the first list at the exact season -/

/-- C9, as stated, fails: in strict mode with query season `"1"`, the first list
`[{season "1", en, likes "0", S1}]` contains an English entry of the exact season,
yet the result is `"S0"`, the season-`"0"` entry of the second list, and not the URL
of an entry of the first list. -/
theorem GetBestShowImage_tier1_counterexample :
    (∃ i : ShowImage, some i ∈ [some (⟨⟨"1", "S1", "en", "0"⟩, "1"⟩ : ShowImage)] ∧
      i.Season = "1" ∧ (i.Lang = "fr" ∨ i.Lang = "en" ∨ i.Lang = "")) ∧
    GetBestShowImage "fr" "1" true "old"
      [[some ⟨⟨"1", "S1", "en", "0"⟩, "1"⟩], [some ⟨⟨"2", "S0", "en", "5"⟩, "0"⟩]] = "S0" ∧
    ¬ ∃ j : ShowImage, some j ∈ [some (⟨⟨"1", "S1", "en", "0"⟩, "1"⟩ : ShowImage)] ∧
      GetBestShowImage "fr" "1" true "old"
        [[some ⟨⟨"1", "S1", "en", "0"⟩, "1"⟩], [some ⟨⟨"2", "S0", "en", "5"⟩, "0"⟩]] = j.URL := by
  refine ⟨⟨⟨⟨"1", "S1", "en", "0"⟩, "1"⟩, by simp, rfl, Or.inr (Or.inl rfl)⟩, by decide, ?_⟩
  rintro ⟨j, hj, h⟩
  simp at hj
  subst hj
  revert h
  decide

/-- The example of the specification with the fields it leaves out unset
(`lang ""`, `likes ""`): the first list yields nothing and the result is the
fallback. -/
theorem tier1_spec_example_result :
    GetBestShowImage "fr" "1" true "old"
      [[some ⟨⟨"", "S1", "", ""⟩, "1"⟩], [some ⟨⟨"", "S0", "", ""⟩, "0"⟩]] = "old" := by
  decide

/-- C9, amended. If the query season `s` is not `""` and the first list contains an
entry of season `s` that is in the preferred language, or is English or unset with
positive likes, then `GetBestShowImage` returns the URL of an entry of the first list
of season `s`, in strict mode and otherwise, whatever the later lists and the
fallback. -/
theorem GetBestShowImage_tier1_first_list (P s : String) (isStrict : Bool) (old : String)
    (L1 : List (Option ShowImage)) (rest : List (List (Option ShowImage)))
    (hs : s ≠ "")
    (h : ∃ i, some i ∈ L1 ∧ i.Season = s ∧
      (i.Lang = P ∨ ((i.Lang = "en" ∨ i.Lang = "") ∧ 0 < likeConvert i.Likes))) :
    ∃ j, some j ∈ L1 ∧ j.Season = s ∧
      GetBestShowImage P s isStrict old (L1 :: rest) = j.URL := by
  have hseason : ∀ j : ShowImage, tier1 s j = true → j.Season = s := by
    intro j hj
    simpa [tier1, hs] using hj
  obtain ⟨i, hi, his, hlang⟩ := h
  have hiq : some i.toImage ∈ qualified (tier1 s) L1 :=
    (mem_qualified _ L1 _).2 ⟨i, hi, by simp [tier1, his], rfl⟩
  by_cases hex : ∃ k, some k ∈ qualified (tier1 s) L1 ∧ k.Lang = P
  · obtain ⟨k, hk, _, hret⟩ := bestScan_ret_of_mem P _ hex
    obtain ⟨j, hj, hjq, hjk⟩ := (mem_qualified _ L1 k).1 hk
    refine ⟨j, hj, hseason j hjq, ?_⟩
    simp [GetBestShowImage, bestShowLoop, bestShowScan_eq, hret 0 "", ← hjk]
  · have hP : ∀ k, some k ∈ qualified (tier1 s) L1 → k.Lang ≠ P :=
      fun k hk e => hex ⟨k, hk, e⟩
    have hpos : ∃ k, some k ∈ qualified (tier1 s) L1 ∧ (k.Lang = "en" ∨ k.Lang = "") ∧
        0 < likeConvert k.Likes := by
      rcases hlang with e | ⟨hen, hlikes⟩
      · exact absurd e (hP _ hiq)
      · exact ⟨i.toImage, hiq, hen, hlikes⟩
    obtain ⟨k, hk, _, hkpos, hscan⟩ := bestScan_popular_pos P _ hP hpos
    obtain ⟨j, hj, hjq, hjk⟩ := (mem_qualified _ L1 k).1 hk
    subst hjk
    refine ⟨j, hj, hseason j hjq, ?_⟩
    simp [GetBestShowImage, bestShowLoop, bestShowScan_eq, hscan, hkpos]

/-- C9, amended, at a concrete input: the first list has an English entry of season
`"1"` with likes 4, the second a season-`"0"` entry with more likes. -/
theorem GetBestShowImage_tier1_first_list_witness :
    ∃ j : ShowImage, some j ∈ [some (⟨⟨"1", "S1", "en", "4"⟩, "1"⟩ : ShowImage)] ∧
      j.Season = "1" ∧
      GetBestShowImage "fr" "1" true "old"
        ([some ⟨⟨"1", "S1", "en", "4"⟩, "1"⟩] :: [[some ⟨⟨"2", "S0", "en", "9"⟩, "0"⟩]]) = j.URL :=
  GetBestShowImage_tier1_first_list "fr" "1" true "old" [some ⟨⟨"1", "S1", "en", "4"⟩, "1"⟩]
    [[some ⟨⟨"2", "S0", "en", "9"⟩, "0"⟩]] (by decide)
    ⟨⟨⟨"1", "S1", "en", "4"⟩, "1"⟩, by simp, rfl, Or.inr ⟨Or.inl rfl, by decide⟩⟩

/-! ## C10: exact language and popularity across the tiers -/

/-- C10, as stated, fails: with preferred language `"fr"`, query season `"2"` and no
strict mode, the single list `[{season "", fr, F}, {season "2", en, likes "5", E}]`
has a preferred-language entry that qualifies at Tier 2, yet the result is `"E"`,
the English entry found at Tier 1, and not the URL of a preferred-language entry. -/
theorem GetBestShowImage_exact_language_counterexample :
    (∃ i : ShowImage,
      some i ∈ [some (⟨⟨"1", "F", "fr", "1"⟩, ""⟩ : ShowImage), some ⟨⟨"2", "E", "en", "5"⟩, "2"⟩] ∧
      (tier1 "2" i = true ∨ tier2 "2" false 1 i = true) ∧ i.Lang = "fr") ∧
    GetBestShowImage "fr" "2" false "old"
      [[some ⟨⟨"1", "F", "fr", "1"⟩, ""⟩, some ⟨⟨"2", "E", "en", "5"⟩, "2"⟩]] = "E" ∧
    ¬ ∃ j : ShowImage,
      some j ∈ [some (⟨⟨"1", "F", "fr", "1"⟩, ""⟩ : ShowImage), some ⟨⟨"2", "E", "en", "5"⟩, "2"⟩] ∧
      j.Lang = "fr" ∧
      GetBestShowImage "fr" "2" false "old"
        [[some ⟨⟨"1", "F", "fr", "1"⟩, ""⟩, some ⟨⟨"2", "E", "en", "5"⟩, "2"⟩]] = j.URL := by
  refine ⟨⟨⟨⟨"1", "F", "fr", "1"⟩, ""⟩, by simp, Or.inr (by decide), rfl⟩, by decide, ?_⟩
  rintro ⟨j, hj, hlang, h⟩
  simp at hj
  rcases hj with e | e <;> subst e <;> revert hlang h <;> decide

/-- C10, amended. For a single list, if some entry that qualifies at Tier 1 is in the
preferred language, or no English or unset entry qualifying at Tier 1 has positive
likes and some entry that qualifies at Tier 2 is in the preferred language, then
`GetBestShowImage` returns the URL of a preferred-language entry qualifying at one of
the tiers; no English or unset entry of the same tier overrides it, whatever its
likes. -/
theorem GetBestShowImage_exact_language (P season : String) (isStrict : Bool) (old : String)
    (l : List (Option ShowImage))
    (h : (∃ i, some i ∈ l ∧ tier1 season i = true ∧ i.Lang = P) ∨
      ((∀ i, some i ∈ l → tier1 season i = true → (i.Lang = "en" ∨ i.Lang = "") →
          likeConvert i.Likes ≤ 0) ∧
        ∃ i, some i ∈ l ∧ tier2 season isStrict 1 i = true ∧ i.Lang = P)) :
    ∃ j, some j ∈ l ∧ j.Lang = P ∧
      (tier1 season j = true ∨ tier2 season isStrict 1 j = true) ∧
      GetBestShowImage P season isStrict old [l] = j.URL := by
  by_cases hex : ∃ k, some k ∈ qualified (tier1 season) l ∧ k.Lang = P
  · obtain ⟨k, hk, hkP, hret⟩ := bestScan_ret_of_mem P _ hex
    obtain ⟨j, hj, hjq, hjk⟩ := (mem_qualified _ l k).1 hk
    refine ⟨j, hj, by rw [← hkP, ← hjk], Or.inl hjq, ?_⟩
    simp [GetBestShowImage, bestShowLoop, bestShowScan_eq, hret 0 "", ← hjk]
  · have hP : ∀ k, some k ∈ qualified (tier1 season) l → k.Lang ≠ P :=
      fun k hk e => hex ⟨k, hk, e⟩
    rcases h with ⟨i, hi, hiq, hiP⟩ | ⟨hnone, i, hi, hiq, hiP⟩
    · exact absurd hiP (hP _ ((mem_qualified _ l _).2 ⟨i, hi, hiq, rfl⟩))
    · have hnone' : ∀ k, some k ∈ qualified (tier1 season) l → (k.Lang = "en" ∨ k.Lang = "") →
          likeConvert k.Likes ≤ 0 := by
        intro k hk hen
        obtain ⟨j, hj, hjq, hjk⟩ := (mem_qualified _ l k).1 hk
        rw [← hjk] at hen ⊢
        exact hnone j hj hjq hen
      have hscan1 := bestScan_nothing P _ hP hnone'
      obtain ⟨k, hk, hkP, hret⟩ := bestScan_ret_of_mem P (qualified (tier2 season isStrict 1) l)
        ⟨i.toImage, (mem_qualified _ l _).2 ⟨i, hi, hiq, rfl⟩, hiP⟩
      obtain ⟨j, hj, hjq, hjk⟩ := (mem_qualified _ l k).1 hk
      refine ⟨j, hj, by rw [← hkP, ← hjk], Or.inr hjq, ?_⟩
      simp [GetBestShowImage, bestShowLoop, bestShowScan_eq, hscan1, hret 0 "", ← hjk]

/-- C10, amended, at a concrete input: a preferred-language entry and an English
entry with more likes, both of the query season; the result is `"F"`. -/
theorem GetBestShowImage_exact_language_witness :
    ∃ j : ShowImage,
      some j ∈ [some (⟨⟨"1", "E", "en", "50"⟩, "2"⟩ : ShowImage), some ⟨⟨"2", "F", "fr", "1"⟩, "2"⟩] ∧
      j.Lang = "fr" ∧ (tier1 "2" j = true ∨ tier2 "2" true 1 j = true) ∧
      GetBestShowImage "fr" "2" true "old"
        [[some ⟨⟨"1", "E", "en", "50"⟩, "2"⟩, some ⟨⟨"2", "F", "fr", "1"⟩, "2"⟩]] = j.URL :=
  GetBestShowImage_exact_language "fr" "2" true "old"
    [some ⟨⟨"1", "E", "en", "50"⟩, "2"⟩, some ⟨⟨"2", "F", "fr", "1"⟩, "2"⟩]
    (Or.inl ⟨⟨⟨"2", "F", "fr", "1"⟩, "2"⟩, by simp, by decide, rfl⟩)

/-! ## Concrete evaluations -/

/-- The model of `strconv.Atoi` behind `likeConvert` on sample inputs: decimal
integers with an optional sign, 0 on a syntax error, the nearest `int64` on a range
error. -/
theorem likeConvert_samples :
    likeConvert "99" = 99 ∧ likeConvert "+7" = 7 ∧ likeConvert "-3" = -3 ∧
    likeConvert "" = 0 ∧ likeConvert "abc" = 0 ∧ likeConvert "1x" = 0 ∧
    likeConvert "9223372036854775808" = 9223372036854775807 := by
  decide

/-- The popularity example of the specification evaluates to `"Y"`. -/
theorem popularityExample_result :
    GetBestImage "fr" "old" [popularityExample] = "Y" := by
  decide

/-! ## C11 and C12: `GetMultipleShowImage` -/

/-- An inner loop of `GetMultipleShowImage` is the inner loop of `GetMultipleImage`
on the entries that pass the season condition. -/
theorem multiShowScan_eq (P : String) (qual : ShowImage → Bool) (l : List (Option ShowImage))
    (res : List String) :
    multiShowScan P qual l res = multiScan P (qualified qual l) res := by
  induction l generalizing res with
  | nil => rfl
  | cons x rest ih =>
    cases x with
    | none => simp [multiShowScan, qualified_none, ih]
    | some i =>
      by_cases hq : qual i = true
      · simp [multiShowScan, qualified_some, hq, multiScan, ih]
      · simp [multiShowScan, qualified_some, hq, ih]

/-- Once the first inner loop has put a URL into `res`, the function returns: the
lists that follow are not read. -/
theorem multiShowLoop_early_return (P season old : String) (l : List (Option ShowImage))
    (rest : List (List (Option ShowImage))) (res : List String)
    (h : multiShowScan P (tier1 season) l res ≠ []) :
    multiShowLoop P season old (l :: rest) res = multiShowScan P (tier1 season) l res := by
  have hpos : 0 < (multiShowScan P (tier1 season) l res).length := List.length_pos.2 h
  simp [multiShowLoop, hpos]

/-- C11. `GetMultipleShowImage` does not accumulate over all lists: with the unscoped
season `""` and the two lists `[{en, A}]`, `[{en, B}]` it returns `["A"]` and leaves
out `"B"`, an English entry of the second list, whereas `GetMultipleImage` on the
same lists without seasons returns `["A", "B"]`. -/
theorem GetMultipleShowImage_second_list_dropped :
    GetMultipleShowImage "fr" "" "old"
      [[some ⟨⟨"1", "A", "en", "1"⟩, ""⟩], [some ⟨⟨"2", "B", "en", "1"⟩, ""⟩]] = ["A"] ∧
    "B" ∉ GetMultipleShowImage "fr" "" "old"
      [[some ⟨⟨"1", "A", "en", "1"⟩, ""⟩], [some ⟨⟨"2", "B", "en", "1"⟩, ""⟩]] ∧
    GetMultipleImage "fr" "old"
      [[some ⟨"1", "A", "en", "1"⟩], [some ⟨"2", "B", "en", "1"⟩]] = ["A", "B"] := by
  decide

/-- With any first list that contributes at its first inner loop, the result of
`GetMultipleShowImage` is what that loop collected, whatever lists follow. -/
theorem GetMultipleShowImage_first_list_decides (P season old : String)
    (l : List (Option ShowImage)) (rest : List (List (Option ShowImage)))
    (h : multiShowScan P (tier1 season) l [] ≠ []) :
    GetMultipleShowImage P season old (l :: rest) = multiShowScan P (tier1 season) l [] := by
  simp [GetMultipleShowImage, multiShowLoop_early_return P season old l rest [] h]

theorem removeRepeats_eq_nil (xs : List String) : removeRepeats xs = [] ↔ xs = [] := by
  cases xs <;> simp [removeRepeats]

/-- The acceptable URLs among the entries that pass a season condition equivalent to
membership of the season in `seasons`. -/
theorem acceptableURLs_qualified (P : String) (qual : ShowImage → Bool) (seasons : List String)
    (l : List (Option ShowImage)) (h : ∀ i, qual i = true ↔ i.Season ∈ seasons) :
    acceptableURLs P (qualified qual l) =
      (l.reduceOption.filter (fun i =>
        decide (i.Season ∈ seasons ∧ (i.Lang = P ∨ i.Lang = "en" ∨ i.Lang = "")))).map
        (fun i => i.URL) := by
  induction l with
  | nil => rfl
  | cons x rest ih =>
    cases x with
    | none => simpa [qualified_none, List.reduceOption_cons_of_none] using ih
    | some i =>
      rw [qualified_some, List.reduceOption_cons_of_some]
      by_cases hq : qual i = true
      · have hs : i.Season ∈ seasons := (h i).1 hq
        by_cases hl : i.Lang = P ∨ i.Lang = "en" ∨ i.Lang = ""
        · simp [hq, acceptableURLs_some, hl, hs, List.filter_cons, ih]
        · simp [hq, acceptableURLs_some, hl, List.filter_cons, ih]
      · have hs : i.Season ∉ seasons := fun e => hq ((h i).2 e)
        simp [hq, hs, List.filter_cons, ih]

/-- An inner loop of `GetMultipleShowImage` started with the empty result collects
the acceptable URLs of the qualifying entries, without repeats. -/
theorem multiShowScan_from_nil (P : String) (qual : ShowImage → Bool) (seasons : List String)
    (l : List (Option ShowImage)) (h : ∀ i, qual i = true ↔ i.Season ∈ seasons) :
    multiShowScan P qual l [] = seasonURLs P seasons l := by
  rw [multiShowScan_eq, multiScan_eq_foldl, foldl_appendNew,
    acceptableURLs_qualified P qual seasons l h]
  simp [seasonURLs]

theorem seasonURLs_eq_nil (P : String) (seasons : List String) (l : List (Option ShowImage)) :
    seasonURLs P seasons l = [] ↔
      ¬ ∃ i, some i ∈ l ∧ i.Season ∈ seasons ∧ (i.Lang = P ∨ i.Lang = "en" ∨ i.Lang = "") := by
  simp only [seasonURLs, removeRepeats_eq_nil, List.map_eq_nil_iff, List.filter_eq_nil_iff,
    List.reduceOption_mem_iff, decide_eq_true_eq]
  constructor
  · rintro h ⟨i, hi, hq⟩
    exact h i hi hq
  · intro h i hi hq
    exact h ⟨i, hi, hq⟩

/-- C12. `GetMultipleShowImage` reaches Tier 2 only when Tier 1 is empty. For a query
season `s` other than `""` and a single list: if some entry has season `s` and a
language among the preferred one, `"en"` and `""`, the result is exactly the
discovery-ordered URLs of such entries without repeats, and entries of season `"0"`
or `""` contribute nothing; if no entry qualifies at Tier 1, the result is the URLs of
the entries of season `"0"` or `""` with such a language, without repeats, or `[old]`
when there are none. -/
theorem GetMultipleShowImage_tiers (P s old : String) (l : List (Option ShowImage))
    (hs : s ≠ "") :
    ((∃ i, some i ∈ l ∧ i.Season = s ∧ (i.Lang = P ∨ i.Lang = "en" ∨ i.Lang = "")) →
      GetMultipleShowImage P s old [l] = seasonURLs P [s] l) ∧
    ((¬ ∃ i, some i ∈ l ∧ i.Season = s ∧ (i.Lang = P ∨ i.Lang = "en" ∨ i.Lang = "")) →
      GetMultipleShowImage P s old [l] =
        if seasonURLs P ["0", ""] l ≠ [] then seasonURLs P ["0", ""] l else [old]) := by
  have h1 : multiShowScan P (tier1 s) l [] = seasonURLs P [s] l :=
    multiShowScan_from_nil P _ [s] l (fun i => by simp [tier1, hs])
  have h2 : multiShowScan P (tier2Multi s) l [] = seasonURLs P ["0", ""] l :=
    multiShowScan_from_nil P _ ["0", ""] l (fun i => by simp [tier2Multi, hs])
  have hnil : seasonURLs P [s] l = [] ↔
      ¬ ∃ i, some i ∈ l ∧ i.Season = s ∧ (i.Lang = P ∨ i.Lang = "en" ∨ i.Lang = "") := by
    rw [seasonURLs_eq_nil]; simp
  constructor
  · intro hex
    have hne : multiShowScan P (tier1 s) l [] ≠ [] := by
      rw [h1]; exact fun e => (hnil.1 e) hex
    rw [GetMultipleShowImage_first_list_decides P s old l [] hne, h1]
  · intro hno
    have he : seasonURLs P [s] l = [] := hnil.2 hno
    simp only [GetMultipleShowImage, multiShowLoop, h1, he, h2]
    generalize seasonURLs P ["0", ""] l = C
    cases C <;> simp

/-- C12 at a concrete list with query season `"2"`: the season-`"2"` entries are
collected and the season-`"0"` entry contributes nothing. -/
theorem GetMultipleShowImage_tiers_witness :
    GetMultipleShowImage "fr" "2" "old"
      [[some ⟨⟨"1", "Z", "en", "9"⟩, "0"⟩, some ⟨⟨"2", "E", "en", "1"⟩, "2"⟩,
        some ⟨⟨"3", "F", "fr", "1"⟩, "2"⟩, some ⟨⟨"4", "E", "", "1"⟩, "2"⟩]] =
      seasonURLs "fr" ["2"]
        [some ⟨⟨"1", "Z", "en", "9"⟩, "0"⟩, some ⟨⟨"2", "E", "en", "1"⟩, "2"⟩,
          some ⟨⟨"3", "F", "fr", "1"⟩, "2"⟩, some ⟨⟨"4", "E", "", "1"⟩, "2"⟩] :=
  (GetMultipleShowImage_tiers "fr" "2" "old"
    [some ⟨⟨"1", "Z", "en", "9"⟩, "0"⟩, some ⟨⟨"2", "E", "en", "1"⟩, "2"⟩,
      some ⟨⟨"3", "F", "fr", "1"⟩, "2"⟩, some ⟨⟨"4", "E", "", "1"⟩, "2"⟩] (by decide)).1
    ⟨⟨⟨"2", "E", "en", "1"⟩, "2"⟩, by simp, rfl, Or.inr (Or.inl rfl)⟩

/-- The two branches of C12 evaluated: Tier 1 non-empty, Tier 1 empty with a Tier-2
entry, and both tiers empty. -/
theorem multiple_show_tier_samples :
    GetMultipleShowImage "fr" "2" "old"
      [[some ⟨⟨"1", "Z", "en", "9"⟩, "0"⟩, some ⟨⟨"2", "E", "en", "1"⟩, "2"⟩,
        some ⟨⟨"3", "F", "fr", "1"⟩, "2"⟩, some ⟨⟨"4", "E", "", "1"⟩, "2"⟩]] = ["E", "F"] ∧
    GetMultipleShowImage "fr" "3" "old"
      [[some ⟨⟨"1", "Z", "en", "9"⟩, "0"⟩, some ⟨⟨"2", "E", "en", "1"⟩, "2"⟩,
        some ⟨⟨"3", "U", "fr", "1"⟩, ""⟩]] = ["Z", "U"] ∧
    GetMultipleShowImage "fr" "3" "old" [[some ⟨⟨"2", "E", "en", "1"⟩, "2"⟩]] = ["old"] := by
  decide

/-! ## C13: malformed likes -/

theorem parseInt_dropSign (cs : List Char) :
    cs = [] ∨ ∃ neg, parseInt cs = parseIntSigned neg (dropSign cs) := by
  unfold parseInt dropSign
  split
  · exact Or.inl rfl
  · exact Or.inr ⟨false, rfl⟩
  · exact Or.inr ⟨true, rfl⟩
  · refine Or.inr ⟨false, ?_⟩
    split <;> simp_all

/-- The digit loop reports a syntax error with value 0 when it meets a character
that is no digit before the accumulated value can overflow: fewer than 20 digits
read, counting those already in `n < 10 ^ m`. -/
theorem parseUintLoop_syntax (body : List Char) (n m : Nat)
    (hbad : body.all isDigit = false) (hn : n < 10 ^ m)
    (hlen : m + (body.takeWhile isDigit).length ≤ 19) :
    parseUintLoop body n = (0, some NumError.errSyntax) := by
  induction body generalizing n m with
  | nil => simp at hbad
  | cons c cs ih =>
    by_cases hc : '0' ≤ c ∧ c ≤ '9'
    · have hd : isDigit c = true := by simp [isDigit, hc]
      have hc9 : c.toNat ≤ 57 := hc.2
      have h0 : '0'.toNat = 48 := rfl
      have hbad' : cs.all isDigit = false := by simpa [List.all_cons, hd] using hbad
      have hlen' : (m + 1) + (cs.takeWhile isDigit).length ≤ 19 := by
        simp [List.takeWhile_cons, hd] at hlen
        omega
      have hm : m ≤ 18 := by omega
      have hpow : 10 ^ m ≤ 10 ^ 18 := Nat.pow_le_pow_right (by norm_num) hm
      have hpow' : 10 ^ (m + 1) ≤ 10 ^ 19 := Nat.pow_le_pow_right (by norm_num) (by omega)
      have hsucc : 10 ^ (m + 1) = 10 ^ m * 10 := pow_succ 10 m
      have hn' : n * 10 + (c.toNat - '0'.toNat) < 10 ^ (m + 1) := by
        rw [h0, hsucc]; omega
      have hcut : ¬ n ≥ maxUint64 / 10 + 1 := by
        have : maxUint64 / 10 + 1 = 1844674407370955162 := by norm_num [maxUint64]
        have : (10 : Nat) ^ 18 = 1000000000000000000 := by norm_num
        omega
      have hmax : ¬ n * 10 + (c.toNat - '0'.toNat) > maxUint64 := by
        have : maxUint64 = 18446744073709551615 := by norm_num [maxUint64]
        have : (10 : Nat) ^ 19 = 10000000000000000000 := by norm_num
        omega
      have hstep : parseUintLoop (c :: cs) n =
          parseUintLoop cs (n * 10 + (c.toNat - '0'.toNat)) := by
        rw [parseUintLoop]
        simp only [hc, and_self, if_true, hcut, hmax, if_false]
      rw [hstep]
      exact ih _ (m + 1) hbad' hn' hlen'
    · rw [parseUintLoop]
      simp only [hc, if_false]

/-- A body that is empty, or holds a character that is no digit after fewer than 20
digits, is a syntax error of `strconv.ParseUint`. -/
theorem parseUint_syntax (body : List Char)
    (hbad : (!body.isEmpty && body.all isDigit) = false)
    (hlen : (body.takeWhile isDigit).length ≤ 19) :
    parseUint body = (0, some NumError.errSyntax) := by
  cases body with
  | nil => rfl
  | cons c cs =>
    have hbad' : (c :: cs).all isDigit = false := by simpa using hbad
    have h := parseUintLoop_syntax (c :: cs) 0 0 hbad' (by norm_num) (by simpa using hlen)
    simpa [parseUint] using h

/-- A string that is no decimal integer and whose digits cannot overflow before the
first character that is no digit converts to 0. -/
theorem likeConvert_eq_zero (s : String) (hbad : isDecimalInteger s = false)
    (hlen : ((unsignedPart s).takeWhile isDigit).length ≤ 19) : likeConvert s = 0 := by
  have hu := parseUint_syntax (unsignedPart s) hbad hlen
  unfold unsignedPart at hu
  unfold likeConvert Atoi
  generalize s.toList = cs at hu
  rcases parseInt_dropSign cs with h | ⟨neg, h⟩
  · subst h; rfl
  · rw [h]
    simp [parseIntSigned, hu]

/-- C13, as stated, fails: `"99999999999999999999x"` is not a decimal integer, yet
`likeConvert` returns the largest `int64`, because `strconv.ParseUint` reports the
overflow of the leading digits before it reaches the `x`; an entry with such likes
beats an entry with 5 likes. -/
theorem likeConvert_malformed_counterexample :
    isDecimalInteger "99999999999999999999x" = false ∧
    likeConvert "99999999999999999999x" = 9223372036854775807 ∧
    GetBestImage "fr" "old"
      [[some ⟨"1", "X", "en", "5"⟩, some ⟨"2", "Y", "en", "99999999999999999999x"⟩]] = "Y" := by
  decide

/-- C13, amended. Malformed likes count as zero: for every likes string that is not
a decimal integer and has at most 19 digits between its optional sign and its first
character that is no digit, `likeConvert` returns 0; an English or unset entry with
such likes never replaces the best candidate in an inner loop of `GetBestImage` or
`GetBestShowImage`, it is compared as having 0 likes. -/
theorem likeConvert_malformed (s : String)
    (hbad : isDecimalInteger s = false)
    (hlen : ((unsignedPart s).takeWhile isDigit).length ≤ 19) :
    likeConvert s = 0 ∧
    (∀ (P : String) (i : Image) (rest : List (Option Image)) (bl : Int) (bi : String),
      i.Likes = s → i.Lang ≠ P → 0 ≤ bl →
        bestScan P (some i :: rest) bl bi = bestScan P rest bl bi) ∧
    (∀ (P : String) (qual : ShowImage → Bool) (i : ShowImage) (rest : List (Option ShowImage))
      (bl : Int) (bi : String),
      i.Likes = s → i.Lang ≠ P → 0 ≤ bl →
        bestShowScan P qual (some i :: rest) bl bi = bestShowScan P qual rest bl bi) := by
  have hzero : likeConvert s = 0 := likeConvert_eq_zero s hbad hlen
  refine ⟨hzero, ?_, ?_⟩
  · intro P i rest bl bi hi hP hbl
    have hnot : ¬ likeConvert i.Likes > bl := by rw [hi, hzero]; exact not_lt.2 hbl
    simp only [bestScan, hP, if_false, hnot]
    split <;> rfl
  · intro P qual i rest bl bi hi hP hbl
    have hnot : ¬ likeConvert i.Likes > bl := by rw [hi, hzero]; exact not_lt.2 hbl
    simp only [bestShowScan, hP, if_false, hnot]
    split
    · split <;> rfl
    · rfl

/-- C13, amended, at the mixed string `"12ab"`. -/
theorem likeConvert_malformed_witness :
    likeConvert "12ab" = 0 ∧
    (∀ (P : String) (i : Image) (rest : List (Option Image)) (bl : Int) (bi : String),
      i.Likes = "12ab" → i.Lang ≠ P → 0 ≤ bl →
        bestScan P (some i :: rest) bl bi = bestScan P rest bl bi) ∧
    (∀ (P : String) (qual : ShowImage → Bool) (i : ShowImage) (rest : List (Option ShowImage))
      (bl : Int) (bi : String),
      i.Likes = "12ab" → i.Lang ≠ P → 0 ≤ bl →
        bestShowScan P qual (some i :: rest) bl bi = bestShowScan P qual rest bl bi) :=
  likeConvert_malformed "12ab" (by decide) (by decide)

/-- Empty, alphabetic and mixed likes of any length below 20 characters give 0. -/
theorem likeConvert_short_malformed (s : String) (hbad : isDecimalInteger s = false)
    (hlen : s.length ≤ 19) : likeConvert s = 0 := by
  have h1 : ((unsignedPart s).takeWhile isDigit).length ≤ (unsignedPart s).length :=
    (List.takeWhile_sublist _).length_le
  have h2 : (unsignedPart s).length ≤ s.length := by
    have hs : s.length = s.toList.length := rfl
    rw [hs]
    unfold unsignedPart
    generalize s.toList = cs
    unfold dropSign
    split <;> simp
  exact likeConvert_eq_zero s hbad (by omega)

/-! ## C14: what the best-image selectors can return -/

/-- An inner loop either returns the URL of an entry, or ends with its state
unchanged, or ends with a larger `bestLikes` and the URL of an entry as `bestItem`. -/
theorem bestScan_result (P : String) (l : List (Option Image)) (bl : Int) (bi : String) :
    (∃ i, some i ∈ l ∧ bestScan P l bl bi = Scan.ret i.URL) ∨
    ∃ bl' bi', bestScan P l bl bi = Scan.cont bl' bi' ∧
      ((bl' = bl ∧ bi' = bi) ∨ (bl < bl' ∧ ∃ i, some i ∈ l ∧ i.URL = bi')) := by
  by_cases hex : ∃ j, some j ∈ l ∧ j.Lang = P
  · obtain ⟨i, hi, _, hret⟩ := bestScan_ret_of_mem P l hex
    exact Or.inl ⟨i, hi, hret bl bi⟩
  · have hP : ∀ j, some j ∈ l → j.Lang ≠ P := fun j hj e => hex ⟨j, hj, e⟩
    obtain ⟨bl', bi', h1, _, h3⟩ := bestScan_popular P l bl bi hP
    refine Or.inr ⟨bl', bi', h1, ?_⟩
    rcases h3 with h3 | ⟨hlt, a, i, b, hl, _, _, hurl, _⟩
    · exact Or.inl h3
    · exact Or.inr ⟨hlt, i, by rw [hl]; simp, hurl⟩

/-- The outer loop of `GetBestImage` gives the fallback or the URL of an entry of one
of the lists. -/
theorem bestLoop_result (P old : String) (lists : List (List (Option Image))) :
    bestLoop P old lists = old ∨
      ∃ l ∈ lists, ∃ i, some i ∈ l ∧ bestLoop P old lists = i.URL := by
  induction lists with
  | nil => exact Or.inl rfl
  | cons l ls ih =>
    rcases bestScan_result P l 0 "" with ⟨i, hi, hret⟩ | ⟨bl', bi', hc, hstate⟩
    · exact Or.inr ⟨l, List.mem_cons_self _ _, i, hi, by simp [bestLoop, hret]⟩
    · rcases hstate with ⟨e, _⟩ | ⟨hlt, i, hi, hurl⟩
      · have hstep : bestLoop P old (l :: ls) = bestLoop P old ls := by
          simp [bestLoop, hc, e]
        rw [hstep]
        rcases ih with h | ⟨l', hl', i, hi, h⟩
        · exact Or.inl h
        · exact Or.inr ⟨l', List.mem_cons_of_mem _ hl', i, hi, h⟩
      · exact Or.inr ⟨l, List.mem_cons_self _ _, i, hi, by simp [bestLoop, hc, hlt, hurl]⟩

/-- The outer loop of `GetBestShowImage` gives the fallback or the URL of an entry of
one of the lists. -/
theorem bestShowLoop_result (P season : String) (isStrict : Bool) (old : String)
    (lists : List (List (Option ShowImage))) (idx : Nat) :
    bestShowLoop P season isStrict old lists idx = old ∨
      ∃ l ∈ lists, ∃ i, some i ∈ l ∧ bestShowLoop P season isStrict old lists idx = i.URL := by
  induction lists generalizing idx with
  | nil => exact Or.inl rfl
  | cons l ls ih =>
    have hback : ∀ (qual : ShowImage → Bool) (k : Image), some k ∈ qualified qual l →
        ∃ j, some j ∈ l ∧ j.URL = k.URL := by
      intro qual k hk
      obtain ⟨j, hj, _, hjk⟩ := (mem_qualified qual l k).1 hk
      exact ⟨j, hj, by rw [← hjk]⟩
    rcases bestScan_result P (qualified (tier1 season) l) 0 "" with
      ⟨k, hk, hret⟩ | ⟨bl', bi', hc, hstate⟩
    · obtain ⟨j, hj, hurl⟩ := hback _ k hk
      exact Or.inr ⟨l, List.mem_cons_self _ _, j, hj,
        by simp [bestShowLoop, bestShowScan_eq, hret, hurl]⟩
    · rcases hstate with ⟨e1, e2⟩ | ⟨hlt, k, hk, hurl⟩
      · subst e1 e2
        rcases bestScan_result P (qualified (tier2 season isStrict (idx + 1)) l) 0 "" with
          ⟨k, hk, hret⟩ | ⟨bl2, bi2, hc2, hstate2⟩
        · obtain ⟨j, hj, hurl⟩ := hback _ k hk
          exact Or.inr ⟨l, List.mem_cons_self _ _, j, hj,
            by simp [bestShowLoop, bestShowScan_eq, hc, hret, hurl]⟩
        · rcases hstate2 with ⟨e, _⟩ | ⟨hlt, k, hk, hurl⟩
          · have hstep : bestShowLoop P season isStrict old (l :: ls) idx =
                bestShowLoop P season isStrict old ls (idx + 1) := by
              simp [bestShowLoop, bestShowScan_eq, hc, hc2, e]
            rw [hstep]
            rcases ih (idx + 1) with h | ⟨l', hl', i, hi, h⟩
            · exact Or.inl h
            · exact Or.inr ⟨l', List.mem_cons_of_mem _ hl', i, hi, h⟩
          · obtain ⟨j, hj, hju⟩ := hback _ k hk
            exact Or.inr ⟨l, List.mem_cons_self _ _, j, hj,
              by simp [bestShowLoop, bestShowScan_eq, hc, hc2, hlt, hurl, hju]⟩
      · obtain ⟨j, hj, hju⟩ := hback _ k hk
        exact Or.inr ⟨l, List.mem_cons_self _ _, j, hj,
          by simp [bestShowLoop, bestShowScan_eq, hc, hlt, hurl, hju]⟩

/-- C14, as stated, fails: with one list and the non-empty fallback `"old"`, a
preferred-language entry with an empty url is selected and both selectors return the
empty string. -/
theorem best_image_nonempty_counterexample :
    GetBestImage "fr" "old" [[some ⟨"1", "", "fr", "1"⟩]] = "" ∧
    GetBestShowImage "fr" "" false "old" [[some ⟨⟨"1", "", "fr", "1"⟩, ""⟩]] = "" ∧
    GetBestImage "fr" "old" [[some ⟨"1", "", "en", "5"⟩]] = "" := by
  decide

/-- An inner loop started at `0, ""` returns the URL of a preferred-language entry, or
ends in the same state, or ends with the positive likes and the URL of an English or
unset entry. -/
theorem bestScan_result_sel (P : String) (l : List (Option Image)) :
    (∃ i, some i ∈ l ∧ i.Lang = P ∧ bestScan P l 0 "" = Scan.ret i.URL) ∨
    bestScan P l 0 "" = Scan.cont 0 "" ∨
    (∃ i, some i ∈ l ∧ (i.Lang = "en" ∨ i.Lang = "") ∧ 0 < likeConvert i.Likes ∧
      bestScan P l 0 "" = Scan.cont (likeConvert i.Likes) i.URL) := by
  by_cases hex : ∃ j, some j ∈ l ∧ j.Lang = P
  · obtain ⟨i, hi, hiP, hret⟩ := bestScan_ret_of_mem P l hex
    exact Or.inl ⟨i, hi, hiP, hret 0 ""⟩
  · have hP : ∀ j, some j ∈ l → j.Lang ≠ P := fun j hj e => hex ⟨j, hj, e⟩
    obtain ⟨bl', bi', h1, _, h3⟩ := bestScan_popular P l 0 "" hP
    rcases h3 with ⟨e1, e2⟩ | ⟨hlt, a, i, b, hl, hen, hlk, hurl, _⟩
    · exact Or.inr (Or.inl (by rw [h1, e1, e2]))
    · exact Or.inr (Or.inr ⟨i, by rw [hl]; simp, hen, by rw [hlk]; exact hlt,
        by rw [h1, hlk, hurl]⟩)

/-- The outer loop of `GetBestImage` gives the fallback or the URL of an entry that is
in the preferred language, or English or unset with positive likes. -/
theorem bestLoop_result_sel (P old : String) (lists : List (List (Option Image))) :
    bestLoop P old lists = old ∨
      ∃ l ∈ lists, ∃ i, some i ∈ l ∧
        (i.Lang = P ∨ ((i.Lang = "en" ∨ i.Lang = "") ∧ 0 < likeConvert i.Likes)) ∧
        bestLoop P old lists = i.URL := by
  induction lists with
  | nil => exact Or.inl rfl
  | cons l ls ih =>
    rcases bestScan_result_sel P l with ⟨i, hi, hiP, hret⟩ | hc | ⟨i, hi, hen, hpos, hc⟩
    · exact Or.inr ⟨l, List.mem_cons_self _ _, i, hi, Or.inl hiP, by simp [bestLoop, hret]⟩
    · have hstep : bestLoop P old (l :: ls) = bestLoop P old ls := by
        simp [bestLoop, hc]
      rw [hstep]
      rcases ih with h | ⟨l', hl', i, hi, hq, h⟩
      · exact Or.inl h
      · exact Or.inr ⟨l', List.mem_cons_of_mem _ hl', i, hi, hq, h⟩
    · exact Or.inr ⟨l, List.mem_cons_self _ _, i, hi, Or.inr ⟨hen, hpos⟩,
        by simp [bestLoop, hc, hpos]⟩

/-- The outer loop of `GetBestShowImage` gives the fallback or the URL of an entry of
the list number `idx + k + 1` that passes the season condition of one of the two inner
loops for that list and is in the preferred language, or English or unset with
positive likes. -/
theorem bestShowLoop_result_sel (P season : String) (isStrict : Bool) (old : String)
    (lists : List (List (Option ShowImage))) (idx : Nat) :
    bestShowLoop P season isStrict old lists idx = old ∨
      ∃ k l, lists[k]? = some l ∧ ∃ i, some i ∈ l ∧
        (tier1 season i = true ∨ tier2 season isStrict (idx + k + 1) i = true) ∧
        (i.Lang = P ∨ ((i.Lang = "en" ∨ i.Lang = "") ∧ 0 < likeConvert i.Likes)) ∧
        bestShowLoop P season isStrict old lists idx = i.URL := by
  induction lists generalizing idx with
  | nil => exact Or.inl rfl
  | cons l ls ih =>
    have hhead : (l :: ls)[0]? = some l := by simp
    rcases bestScan_result_sel P (qualified (tier1 season) l) with
      ⟨k, hk, hkP, hret⟩ | hc | ⟨k, hk, hen, hpos, hc⟩
    · obtain ⟨j, hj, hjq, hjk⟩ := (mem_qualified _ l k).1 hk
      subst hjk
      exact Or.inr ⟨0, l, hhead, j, hj, Or.inl hjq, Or.inl hkP,
        by simp [bestShowLoop, bestShowScan_eq, hret]⟩
    · rcases bestScan_result_sel P (qualified (tier2 season isStrict (idx + 1)) l) with
        ⟨k, hk, hkP, hret⟩ | hc2 | ⟨k, hk, hen, hpos, hc2⟩
      · obtain ⟨j, hj, hjq, hjk⟩ := (mem_qualified _ l k).1 hk
        subst hjk
        exact Or.inr ⟨0, l, hhead, j, hj, Or.inr hjq, Or.inl hkP,
          by simp [bestShowLoop, bestShowScan_eq, hc, hret]⟩
      · have hstep : bestShowLoop P season isStrict old (l :: ls) idx =
            bestShowLoop P season isStrict old ls (idx + 1) := by
          simp [bestShowLoop, bestShowScan_eq, hc, hc2]
        rw [hstep]
        rcases ih (idx + 1) with h | ⟨k, l', hl', i, hi, hq, hsel, h⟩
        · exact Or.inl h
        · have hidx : idx + 1 + k + 1 = idx + (k + 1) + 1 := by omega
          rw [hidx] at hq
          exact Or.inr ⟨k + 1, l', by simpa using hl', i, hi, hq, hsel, h⟩
      · obtain ⟨j, hj, hjq, hjk⟩ := (mem_qualified _ l k).1 hk
        subst hjk
        exact Or.inr ⟨0, l, hhead, j, hj, Or.inr hjq, Or.inr ⟨hen, hpos⟩,
          by simp [bestShowLoop, bestShowScan_eq, hc, hc2, hpos]⟩
    · obtain ⟨j, hj, hjq, hjk⟩ := (mem_qualified _ l k).1 hk
      subst hjk
      exact Or.inr ⟨0, l, hhead, j, hj, Or.inl hjq, Or.inr ⟨hen, hpos⟩,
        by simp [bestShowLoop, bestShowScan_eq, hc, hpos]⟩

/-- C14, amended. An entry with an empty url can be selected like any other. For
every input with at least one list, the result of `GetBestImage` and of
`GetBestShowImage` is either the fallback or the URL of an entry that can be
selected: one in the preferred language, or English or unset with positive likes,
and for shows passing the season condition of Tier 1 or of Tier 2 for its list. So
with a non-empty fallback the result is the empty string only if such an entry has an
empty url; entries that cannot be selected may have any url. -/
theorem best_image_nonempty (P season : String) (isStrict : Bool) (old : String)
    (lists : List (List (Option Image))) (showLists : List (List (Option ShowImage)))
    (hne : lists ≠ []) (hne' : showLists ≠ []) (hold : old ≠ "")
    (hurl : ∀ l ∈ lists, ∀ i, some i ∈ l →
      (i.Lang = P ∨ ((i.Lang = "en" ∨ i.Lang = "") ∧ 0 < likeConvert i.Likes)) → i.URL ≠ "")
    (hurl' : ∀ k l, showLists[k]? = some l → ∀ i, some i ∈ l →
      (tier1 season i = true ∨ tier2 season isStrict (k + 1) i = true) →
      (i.Lang = P ∨ ((i.Lang = "en" ∨ i.Lang = "") ∧ 0 < likeConvert i.Likes)) → i.URL ≠ "") :
    (GetBestImage P old lists ≠ "" ∧
      (GetBestImage P old lists = old ∨
        ∃ l ∈ lists, ∃ i, some i ∈ l ∧
          (i.Lang = P ∨ ((i.Lang = "en" ∨ i.Lang = "") ∧ 0 < likeConvert i.Likes)) ∧
          GetBestImage P old lists = i.URL)) ∧
    (GetBestShowImage P season isStrict old showLists ≠ "" ∧
      (GetBestShowImage P season isStrict old showLists = old ∨
        ∃ k l, showLists[k]? = some l ∧ ∃ i, some i ∈ l ∧
          (tier1 season i = true ∨ tier2 season isStrict (k + 1) i = true) ∧
          (i.Lang = P ∨ ((i.Lang = "en" ∨ i.Lang = "") ∧ 0 < likeConvert i.Likes)) ∧
          GetBestShowImage P season isStrict old showLists = i.URL)) := by
  have hlen : lists.length ≠ 0 := fun e => hne (List.length_eq_zero.1 e)
  have hlen' : showLists.length ≠ 0 := fun e => hne' (List.length_eq_zero.1 e)
  have h1 : GetBestImage P old lists = bestLoop P old lists := by simp [GetBestImage, hlen]
  have h2 : GetBestShowImage P season isStrict old showLists =
      bestShowLoop P season isStrict old showLists 0 := by simp [GetBestShowImage, hlen']
  rw [h1, h2]
  constructor
  · have h := bestLoop_result_sel P old lists
    refine ⟨?_, h⟩
    rcases h with h | ⟨l, hl, i, hi, hsel, h⟩
    · rw [h]; exact hold
    · rw [h]; exact hurl l hl i hi hsel
  · have h := bestShowLoop_result_sel P season isStrict old showLists 0
    simp only [Nat.zero_add] at h
    refine ⟨?_, h⟩
    rcases h with h | ⟨k, l, hl, i, hi, hq, hsel, h⟩
    · rw [h]; exact hold
    · rw [h]; exact hurl' k l hl i hi hq hsel

/-- C14, amended, at lists that hold entries with an empty url which cannot be
selected: a German entry, an English entry with likes 0, and an entry of another
season. -/
theorem best_image_nonempty_witness :
    GetBestImage "fr" "old"
      [[some ⟨"1", "", "de", "9"⟩, some ⟨"2", "", "en", "0"⟩, some ⟨"3", "F", "fr", "1"⟩]] ≠ "" ∧
    GetBestShowImage "fr" "1" true "old"
      [[some ⟨⟨"1", "", "fr", "9"⟩, "2"⟩, some ⟨⟨"2", "S", "en", "1"⟩, "1"⟩]] ≠ "" :=
  have h := best_image_nonempty "fr" "1" true "old"
    [[some ⟨"1", "", "de", "9"⟩, some ⟨"2", "", "en", "0"⟩, some ⟨"3", "F", "fr", "1"⟩]]
    [[some ⟨⟨"1", "", "fr", "9"⟩, "2"⟩, some ⟨⟨"2", "S", "en", "1"⟩, "1"⟩]]
    (by simp) (by simp) (by decide)
    (by
      intro l hl i hi
      simp only [List.mem_singleton] at hl
      subst hl
      simp only [List.mem_cons, Option.some.injEq, List.mem_singleton, List.not_mem_nil,
        or_false] at hi
      rcases hi with e | e | e <;> subst e <;> decide)
    (by
      intro k l hk i hi
      cases k with
      | zero =>
        simp only [List.getElem?_cons_zero, Option.some.injEq] at hk
        subst hk
        simp only [List.mem_cons, Option.some.injEq, List.mem_singleton, List.not_mem_nil,
          or_false] at hi
        rcases hi with e | e <;> subst e <;> decide
      | succ k => simp at hk)
  ⟨h.1.1, h.2.1⟩

/-- The lists of the witness evaluated: the selectable entries are returned, the
entries with an empty url are passed over. -/
theorem empty_url_passed_over :
    GetBestImage "fr" "old"
      [[some ⟨"1", "", "de", "9"⟩, some ⟨"2", "", "en", "0"⟩, some ⟨"3", "F", "fr", "1"⟩]] = "F" ∧
    GetBestShowImage "fr" "1" true "old"
      [[some ⟨⟨"1", "", "fr", "9"⟩, "2"⟩, some ⟨⟨"2", "S", "en", "1"⟩, "1"⟩]] = "S" := by
  decide

/-! ## C15: the thumbnail -/

theorem Itoa_samples : Itoa 0 = "0" ∧ Itoa 2 = "2" ∧ Itoa 12 = "12" ∧ Itoa (-3) = "-3" := by
  decide

theorem disksToImages_nil_entry (disks : List (Option Disk)) (h : none ∈ disks) :
    disksToImages disks = none := by
  induction disks with
  | nil => simp at h
  | cons d rest ih =>
    cases d with
    | none => rfl
    | some disk =>
      have hrest : none ∈ rest := by simpa using h
      simp [disksToImages, ih hrest]

theorem disksToImages_no_nil (disks : List (Option Disk)) (h : none ∉ disks) :
    ∃ images, disksToImages disks = some images := by
  induction disks with
  | nil => exact ⟨[], rfl⟩
  | cons d rest ih =>
    cases d with
    | none => exact absurd (List.mem_cons_self _ _) h
    | some disk =>
      obtain ⟨images, hi⟩ := ih (fun e => h (List.mem_cons_of_mem _ e))
      exact ⟨some disk.toImage :: images, by simp [disksToImages, hi]⟩

/-- On the movie whose `MovieDisc` list holds one nil entry, `disksToImages`
dereferences the nil pointer and `Movie.ToListItemArt` returns no record at all. The
image selectors skip nil entries; `disksToImages` does not. -/
theorem Movie_ToListItemArt_nil_disc :
    (none : Option Disk) ∈ nilDiscMovie.MovieDisc ∧
    Movie.ToListItemArt "en" nilDiscMovie sampleOld = none ∧
    GetBestImage "en" "old" [[none, some ⟨"1", "X", "en", "1"⟩]] = "X" := by
  decide

/-- A nil entry anywhere in `MovieDisc` makes `Movie.ToListItemArt` panic. -/
theorem Movie_ToListItemArt_panics (P : String) (fa : Movie) (old : ListItemArt)
    (h : none ∈ fa.MovieDisc) : Movie.ToListItemArt P fa old = none := by
  simp [Movie.ToListItemArt, disksToImages_nil_entry fa.MovieDisc h]

/-- The three show mappers return a record with the thumbnail of `old`, for every
show, season number and previous record. -/
theorem Show_thumbnail_passes_through (P : String) (fa : Show) (season : Int)
    (old : ListItemArt) :
    (Show.ToListItemArt P fa old).Thumbnail = old.Thumbnail ∧
    (Show.ToSeasonListItemArt P fa season old).Thumbnail = old.Thumbnail ∧
    (Show.ToEpisodeListItemArt P fa season old).Thumbnail = old.Thumbnail :=
  ⟨rfl, rfl, rfl⟩

/-- The movie mapper returns a record whenever `MovieDisc` has no nil entry, and
every record it returns has the thumbnail of `old`. -/
theorem Movie_thumbnail_passes_through (P : String) (fa : Movie) (old : ListItemArt) :
    (none ∉ fa.MovieDisc → ∃ r, Movie.ToListItemArt P fa old = some r) ∧
    ∀ r, Movie.ToListItemArt P fa old = some r → r.Thumbnail = old.Thumbnail := by
  constructor
  · intro h
    obtain ⟨images, hi⟩ := disksToImages_no_nil fa.MovieDisc h
    simp [Movie.ToListItemArt, hi]
  · intro r hr
    unfold Movie.ToListItemArt at hr
    split at hr
    · cases hr
    · cases hr; rfl

/-- C15. The thumbnail passes through: for every movie and show aggregate, every
season number and every previous record `old`, the record returned by
`Movie.ToListItemArt`, `Show.ToListItemArt`, `Show.ToSeasonListItemArt` and
`Show.ToEpisodeListItemArt` has the thumbnail of `old`, whatever the image lists
contain. The three show mappers always return a record; the movie mapper returns one
whenever `MovieDisc` has no nil entry. -/
theorem Thumbnail_passes_through (P : String) (movie : Movie) (fa : Show) (season : Int)
    (old : ListItemArt) :
    (∀ r, Movie.ToListItemArt P movie old = some r → r.Thumbnail = old.Thumbnail) ∧
    (none ∉ movie.MovieDisc →
      ∃ r, Movie.ToListItemArt P movie old = some r ∧ r.Thumbnail = old.Thumbnail) ∧
    (Show.ToListItemArt P fa old).Thumbnail = old.Thumbnail ∧
    (Show.ToSeasonListItemArt P fa season old).Thumbnail = old.Thumbnail ∧
    (Show.ToEpisodeListItemArt P fa season old).Thumbnail = old.Thumbnail := by
  have hm := Movie_thumbnail_passes_through P movie old
  refine ⟨hm.2, ?_, rfl, rfl, rfl⟩
  intro hnil
  obtain ⟨r, hr⟩ := hm.1 hnil
  exact ⟨r, hr, hm.2 r hr⟩

/-- C15 at a movie with a poster and a disc, and a record with thumbnail `"t"`. -/
theorem Thumbnail_passes_through_witness :
    ∃ r, Movie.ToListItemArt "en"
        { emptyMovie with MoviePoster := [some ⟨"1", "NP", "en", "4"⟩],
                          MovieDisc := [some ⟨⟨"2", "ND", "en", "2"⟩, "1", "bluray"⟩] }
        sampleOld = some r ∧ r.Thumbnail = sampleOld.Thumbnail :=
  (Thumbnail_passes_through "en"
    { emptyMovie with MoviePoster := [some ⟨"1", "NP", "en", "4"⟩],
                      MovieDisc := [some ⟨⟨"2", "ND", "en", "2"⟩, "1", "bluray"⟩] }
    emptyShow 1 sampleOld).2.1 (by decide)

/-! ## C16, C17 and C18: the mappers on empty lists and on season lists -/

theorem GetBestImage_empty1 (P old : String) : GetBestImage P old [[]] = old := rfl

theorem GetBestImage_empty2 (P old : String) : GetBestImage P old [[], []] = old := rfl

theorem GetMultipleImage_empty1 (P old : String) : GetMultipleImage P old [[]] = [old] := rfl

theorem GetMultipleImage_empty2 (P old : String) : GetMultipleImage P old [[], []] = [old] :=
  rfl

theorem GetBestShowImage_empty1 (P s : String) (strict : Bool) (old : String) :
    GetBestShowImage P s strict old [[]] = old := rfl

theorem GetBestShowImage_empty2 (P s : String) (strict : Bool) (old : String) :
    GetBestShowImage P s strict old [[], []] = old := rfl

theorem GetMultipleShowImage_empty1 (P s old : String) :
    GetMultipleShowImage P s old [[]] = [old] := rfl

theorem GetMultipleShowImage_empty2 (P s old : String) :
    GetMultipleShowImage P s old [[], []] = [old] := rfl

/-- C16. The movie mapper falls back on every slot: for a movie whose image lists
are all empty, `Movie.ToListItemArt` returns a record whose Poster, Banner, FanArt,
ClearArt, ClearLogo, Landscape, KeyArt and DiscArt (and Thumbnail) are those of `old`,
whose `FanArts` is `[old.FanArt]` and whose `AvailableArtworks` holds, for each of the
eight slots, the one-element list with the value of `old`. -/
theorem Movie_ToListItemArt_fallback (P : String) (fa : Movie) (old : ListItemArt)
    (h1 : fa.MoviePoster = []) (h2 : fa.MovieBanner = []) (h3 : fa.MovieBackground = [])
    (h4 : fa.HDMovieClearArt = []) (h5 : fa.MovieClearArt = []) (h6 : fa.HDMovieLogo = [])
    (h7 : fa.MovieLogo = []) (h8 : fa.MovieThumb = []) (h9 : fa.MovieDisc = []) :
    Movie.ToListItemArt P fa old = some
      { Poster := old.Poster
        Thumbnail := old.Thumbnail
        Banner := old.Banner
        FanArt := old.FanArt
        FanArts := [old.FanArt]
        ClearArt := old.ClearArt
        ClearLogo := old.ClearLogo
        Landscape := old.Landscape
        KeyArt := old.KeyArt
        DiscArt := old.DiscArt
        AvailableArtworks := some
          { Poster := [old.Poster]
            Banner := [old.Banner]
            FanArt := [old.FanArt]
            ClearArt := [old.ClearArt]
            ClearLogo := [old.ClearLogo]
            Landscape := [old.Landscape]
            KeyArt := [old.KeyArt]
            DiscArt := [old.DiscArt] } } := by
  simp only [Movie.ToListItemArt, h1, h2, h3, h4, h5, h6, h7, h8, h9, disksToImages,
    GetBestImage_empty1, GetBestImage_empty2, GetMultipleImage_empty1, GetMultipleImage_empty2]

/-- C16 at the movie without any image and a record with distinct slot values. -/
theorem Movie_ToListItemArt_fallback_witness :
    Movie.ToListItemArt "en" emptyMovie sampleOld = some
      { Poster := "p", Thumbnail := "t", Banner := "b", FanArt := "f", FanArts := ["f"],
        ClearArt := "ca", ClearLogo := "cl", Landscape := "l", KeyArt := "k", DiscArt := "d",
        AvailableArtworks := some
          { Poster := ["p"], Banner := ["b"], FanArt := ["f"], ClearArt := ["ca"],
            ClearLogo := ["cl"], Landscape := ["l"], KeyArt := ["k"], DiscArt := ["d"] } } :=
  Movie_ToListItemArt_fallback "en" emptyMovie sampleOld rfl rfl rfl rfl rfl rfl rfl rfl rfl

/-- C17, as stated, fails: on the show without any image, none of the three show
mappers carries `DiscArt` over from `old`, and the season and episode mappers do not
carry `KeyArt` over either; the slots are left empty. -/
theorem Show_mappers_fallback_counterexample :
    sampleOld.DiscArt = "d" ∧ sampleOld.KeyArt = "k" ∧
    (Show.ToListItemArt "en" emptyShow sampleOld).DiscArt = "" ∧
    (Show.ToSeasonListItemArt "en" emptyShow 1 sampleOld).DiscArt = "" ∧
    (Show.ToEpisodeListItemArt "en" emptyShow 1 sampleOld).DiscArt = "" ∧
    (Show.ToSeasonListItemArt "en" emptyShow 1 sampleOld).KeyArt = "" ∧
    (Show.ToEpisodeListItemArt "en" emptyShow 1 sampleOld).KeyArt = "" := by
  decide

/-- C17, amended. For a show whose image lists are all empty, each of the three show
mappers returns a record whose Poster, Banner, FanArt, ClearArt, ClearLogo and
Landscape are those of `old`; `Show.ToListItemArt` also carries `KeyArt` over. No
show mapper sets `DiscArt`, and the season and episode mappers do not set `KeyArt`:
these slots are empty in the result. -/
theorem Show_mappers_fallback (P : String) (fa : Show) (season : Int) (old : ListItemArt)
    (h1 : fa.TVPoster = []) (h2 : fa.TVBanner = []) (h3 : fa.ShowBackground = [])
    (h4 : fa.HDClearArt = []) (h5 : fa.ClearArt = []) (h6 : fa.HdtvLogo = [])
    (h7 : fa.ClearLogo = []) (h8 : fa.TVThumb = []) (h9 : fa.SeasonPoster = [])
    (h10 : fa.SeasonBanner = []) (h11 : fa.SeasonThumb = []) :
    Show.ToListItemArt P fa old =
      { Poster := old.Poster
        Thumbnail := old.Thumbnail
        Banner := old.Banner
        FanArt := old.FanArt
        FanArts := [old.FanArt]
        ClearArt := old.ClearArt
        ClearLogo := old.ClearLogo
        Landscape := old.Landscape
        KeyArt := old.KeyArt
        DiscArt := ""
        AvailableArtworks := some
          { Poster := [old.Poster]
            Banner := [old.Banner]
            FanArt := [old.FanArt]
            ClearArt := [old.ClearArt]
            ClearLogo := [old.ClearLogo]
            Landscape := [old.Landscape]
            KeyArt := [old.KeyArt] } } ∧
    Show.ToSeasonListItemArt P fa season old =
      { TvShowPoster := old.Poster
        Poster := old.Poster
        Thumbnail := old.Thumbnail
        Banner := old.Banner
        FanArt := old.FanArt
        FanArts := [old.FanArt]
        ClearArt := old.ClearArt
        ClearLogo := old.ClearLogo
        Landscape := old.Landscape
        KeyArt := ""
        DiscArt := "" } ∧
    Show.ToEpisodeListItemArt P fa season old =
      { TvShowPoster := old.Poster
        Poster := old.Poster
        Thumbnail := old.Thumbnail
        Banner := old.Banner
        FanArt := old.FanArt
        FanArts := [old.FanArt]
        ClearArt := old.ClearArt
        ClearLogo := old.ClearLogo
        Landscape := old.Landscape
        KeyArt := ""
        DiscArt := "" } := by
  refine ⟨?_, ?_, ?_⟩
  · simp only [Show.ToListItemArt, h1, h2, h3, h4, h5, h6, h7, h8,
      GetBestShowImage_empty1, GetBestShowImage_empty2, GetMultipleShowImage_empty1,
      GetMultipleShowImage_empty2]
  · simp only [Show.ToSeasonListItemArt, h1, h2, h3, h4, h5, h6, h7, h8, h9, h10, h11,
      GetBestShowImage_empty1, GetBestShowImage_empty2, GetMultipleShowImage_empty1,
      GetMultipleShowImage_empty2]
  · simp only [Show.ToEpisodeListItemArt, h1, h2, h3, h4, h5, h6, h7, h8, h9, h10, h11,
      GetBestShowImage_empty1, GetBestShowImage_empty2, GetMultipleShowImage_empty1,
      GetMultipleShowImage_empty2]

/-- C17, amended, at the show without any image, season 1 and a record with distinct
slot values. -/
theorem Show_mappers_fallback_witness :
    Show.ToListItemArt "en" emptyShow sampleOld =
      { Poster := "p", Thumbnail := "t", Banner := "b", FanArt := "f", FanArts := ["f"],
        ClearArt := "ca", ClearLogo := "cl", Landscape := "l", KeyArt := "k", DiscArt := "",
        AvailableArtworks := some
          { Poster := ["p"], Banner := ["b"], FanArt := ["f"], ClearArt := ["ca"],
            ClearLogo := ["cl"], Landscape := ["l"], KeyArt := ["k"] } } ∧
    Show.ToSeasonListItemArt "en" emptyShow 1 sampleOld =
      { TvShowPoster := "p", Poster := "p", Thumbnail := "t", Banner := "b", FanArt := "f",
        FanArts := ["f"], ClearArt := "ca", ClearLogo := "cl", Landscape := "l",
        KeyArt := "", DiscArt := "" } ∧
    Show.ToEpisodeListItemArt "en" emptyShow 1 sampleOld =
      { TvShowPoster := "p", Poster := "p", Thumbnail := "t", Banner := "b", FanArt := "f",
        FanArts := ["f"], ClearArt := "ca", ClearLogo := "cl", Landscape := "l",
        KeyArt := "", DiscArt := "" } :=
  Show_mappers_fallback "en" emptyShow 1 sampleOld rfl rfl rfl rfl rfl rfl rfl rfl rfl rfl rfl

/-- C18. The overall-show mapper ignores the season lists: replacing `SeasonPoster`,
`SeasonThumb`, `SeasonBanner` and `CharacterArt` of a show by any other lists leaves
the record returned by `Show.ToListItemArt` unchanged, for every previous record. -/
theorem Show_ToListItemArt_ignores_season_lists (P : String) (fa : Show) (old : ListItemArt)
    (seasonPoster seasonThumb seasonBanner characterArt : List (Option ShowImage)) :
    Show.ToListItemArt P
      { fa with SeasonPoster := seasonPoster, SeasonThumb := seasonThumb,
                SeasonBanner := seasonBanner, CharacterArt := characterArt } old =
      Show.ToListItemArt P fa old :=
  rfl

/-- The season lists do influence the season and episode mappers: a poster of season
1 in `SeasonPoster` becomes the poster of season 1. -/
theorem season_lists_influence_season_mappers :
    (Show.ToSeasonListItemArt "en"
      { emptyShow with SeasonPoster := [some ⟨⟨"1", "SP", "en", "1"⟩, "1"⟩] } 1 sampleOld).Poster
      = "SP" ∧
    (Show.ToEpisodeListItemArt "en"
      { emptyShow with SeasonPoster := [some ⟨⟨"1", "SP", "en", "1"⟩, "1"⟩] } 1 sampleOld).Poster
      = "SP" ∧
    (Show.ToSeasonListItemArt "en" emptyShow 1 sampleOld).Poster = "p" := by
  decide

/-! ## C19 and C20: `Get` -/

theorem Get_samples :
    Get (upstream403Then200 0) 1 ⟨0, 0⟩ = some (⟨some ⟨200, "ok"⟩, none⟩, ⟨1, 0⟩) ∧
    Get (upstream403Then200 1) 2 ⟨0, 0⟩ = some (⟨some ⟨200, "ok"⟩, none⟩, ⟨2, 0⟩) ∧
    Get (upstream403Then200 2) 3 ⟨0, 0⟩ = some (⟨some ⟨200, "ok"⟩, none⟩, ⟨3, 0⟩) ∧
    Get (upstream403Then200 2) 2 ⟨0, 0⟩ = none := by
  decide

/-- More fuel does not change a result of `Get`. -/
theorem Get_fuel_mono (upstream : Nat → SendResult) (fuel extra : Nat) (st : Net)
    (out : GetResult × Net) (h : Get upstream fuel st = some out) :
    Get upstream (fuel + extra) st = some out := by
  induction fuel generalizing st out with
  | zero => simp [Get] at h
  | succ fuel ih =>
    rw [Nat.add_right_comm]
    simp only [Get, rlCall, getClosure] at h ⊢
    cases hu : upstream st.sends with
    | failed resp => simpa [hu] using h
    | answered resp =>
      simp only [hu] at h ⊢
      by_cases h429 : resp.Status = 429
      · simpa [h429] using h
      · by_cases h403 : resp.Status = 403 ∧ retriesLeft > 0
        · simp only [h429, h403, if_false, and_self, if_true] at h ⊢
          cases hrec : Get upstream fuel ⟨st.sends + 1, st.coolDowns⟩ with
          | none => simp [hrec] at h
          | some out' =>
            rw [ih _ out' hrec]
            simpa [hrec] using h
        · simpa [h429, h403] using h

/-- One step of `Get` on a 403 answer: the request is sent again, whatever the number
of sends so far. -/
theorem Get_step_403 (upstream : Nat → SendResult) (fuel : Nat) (st : Net) (body : String)
    (h : upstream st.sends = SendResult.answered ⟨403, body⟩) :
    Get upstream (fuel + 1) st = Get upstream fuel ⟨st.sends + 1, st.coolDowns⟩ := by
  have hr : retriesLeft > 0 := by decide
  simp only [Get, rlCall, getClosure, h]
  have h429 : ¬ (403 : Int) = 429 := by decide
  simp only [h429, if_false, hr, and_self, if_true]
  cases Get upstream fuel ⟨st.sends + 1, st.coolDowns⟩ with
  | none => rfl
  | some out => rfl

/-- After `k` answers 403 and one answer 200, `Get` returns, having sent `k + 1`
requests. -/
theorem Get_403_then_200 (k d c : Nat) (hd : d ≤ k) :
    Get (upstream403Then200 k) (d + 1) ⟨k - d, c⟩ =
      some (⟨some ⟨200, "ok"⟩, none⟩, ⟨k + 1, c⟩) := by
  induction d with
  | zero =>
    simp [Get, rlCall, getClosure, upstream403Then200]
  | succ d ih =>
    have hlt : k - (d + 1) < k := by omega
    have hup : upstream403Then200 k (Net.mk (k - (d + 1)) c).sends =
        SendResult.answered ⟨403, ""⟩ := by
      simp [upstream403Then200, hlt]
    rw [Get_step_403 _ (d + 1) _ "" hup]
    have hnext : k - (d + 1) + 1 = k - d := by omega
    simp only [hnext]
    exact ih (by omega)

/-- With 403 to every send, `Get` does not return, whatever the fuel. -/
theorem Get_always_403 (fuel : Nat) (st : Net) : Get upstreamAlways403 fuel st = none := by
  induction fuel generalizing st with
  | zero => rfl
  | succ fuel ih =>
    rw [Get_step_403 upstreamAlways403 fuel st "" rfl]
    exact ih _

/-- C19. The 403 retry is not bounded: `retriesLeft` is tested and never decremented.
After `k` answers 403 followed by a 200, one call of `Get` has issued `k + 1` sends
(three sends for 403, 403, 200), and when the upstream answers 403 to every request
`Get` never returns. -/
theorem Get_retry_unbounded :
    Get (upstream403Then200 2) 3 ⟨0, 0⟩ = some (⟨some ⟨200, "ok"⟩, none⟩, ⟨3, 0⟩) ∧
    (∀ k, Get (upstream403Then200 k) (k + 1) ⟨0, 0⟩ =
      some (⟨some ⟨200, "ok"⟩, none⟩, ⟨k + 1, 0⟩)) ∧
    (∀ fuel, Get upstreamAlways403 fuel ⟨0, 0⟩ = none) := by
  have h : ∀ k, Get (upstream403Then200 k) (k + 1) ⟨0, 0⟩ =
      some (⟨some ⟨200, "ok"⟩, none⟩, ⟨k + 1, 0⟩) := by
    intro k
    have := Get_403_then_200 k k 0 (le_refl k)
    simpa using this
  exact ⟨h 2, h, fun fuel => Get_always_403 fuel ⟨0, 0⟩⟩

/-- When the first answer is not 403, `Get` issues exactly one send. -/
theorem Get_single_send (upstream : Nat → SendResult) (fuel : Nat) (st : Net) (resp : Response)
    (h : upstream st.sends = SendResult.answered resp) (h403 : resp.Status ≠ 403) :
    ∃ r c, Get upstream (fuel + 1) st = some (r, ⟨st.sends + 1, c⟩) := by
  by_cases h429 : resp.Status = 429
  · exact ⟨⟨some resp, none⟩, st.coolDowns + 1, by simp [Get, rlCall, getClosure, h, h429]⟩
  · exact ⟨⟨some resp, none⟩, st.coolDowns, by simp [Get, rlCall, getClosure, h, h429, h403]⟩

/-- The error returned by `Get` is never `util.ErrExceeded`: the named result `err` is
only assigned from `napping.Send` and from the recursive call. -/
theorem Get_never_errExceeded (upstream : Nat → SendResult) (fuel : Nat) (st : Net)
    (r : GetResult) (st' : Net) (h : Get upstream fuel st = some (r, st')) :
    r.err ≠ some GoError.errExceeded := by
  induction fuel generalizing st r st' with
  | zero => simp [Get] at h
  | succ fuel ih =>
    simp only [Get, rlCall, getClosure] at h
    cases hu : upstream st.sends with
    | failed resp =>
      simp only [hu, Option.some.injEq, Prod.mk.injEq] at h
      rw [← h.1]; simp
    | answered resp =>
      simp only [hu] at h
      by_cases h429 : resp.Status = 429
      · simp only [h429, if_true, Option.some.injEq, Prod.mk.injEq] at h
        rw [← h.1]; simp
      · by_cases h403 : resp.Status = 403 ∧ retriesLeft > 0
        · have hr : retriesLeft > 0 := h403.2
          cases hrec : Get upstream fuel ⟨st.sends + 1, st.coolDowns⟩ with
          | none => simp [h403.1, hr, hrec] at h
          | some out =>
            obtain ⟨r', st''⟩ := out
            simp [h403.1, hr, hrec] at h
            rw [← h.1]
            exact ih _ r' st'' hrec
        · simp only [h429, h403, if_false, Option.some.injEq, Prod.mk.injEq] at h
          rw [← h.1]; simp

/-- C20. A 429 does not surface as a failure: when the send succeeds at the network
level with status 429, `Get` triggers the cooldown and returns the 429 response with
a nil error; the `util.ErrExceeded` returned inside the closure goes to `rl.Call` and
is dropped. -/
theorem Get_429_returns_nil_error :
    Get upstreamAlways429 1 ⟨0, 0⟩ = some (⟨some ⟨429, "slow down"⟩, none⟩, ⟨1, 1⟩) ∧
    (∀ fuel, Get upstreamAlways429 (fuel + 1) ⟨0, 0⟩ =
      some (⟨some ⟨429, "slow down"⟩, none⟩, ⟨1, 1⟩)) := by
  refine ⟨by decide, fun fuel => ?_⟩
  simp [Get, rlCall, getClosure, upstreamAlways429]

/-- Whenever the answer to the send is a 429, `Get` returns it with a nil error after
one cooldown. -/
theorem Get_on_429 (upstream : Nat → SendResult) (fuel : Nat) (st : Net) (resp : Response)
    (h : upstream st.sends = SendResult.answered resp) (h429 : resp.Status = 429) :
    Get upstream (fuel + 1) st =
      some (⟨some resp, none⟩, ⟨st.sends + 1, st.coolDowns + 1⟩) := by
  simp [Get, rlCall, getClosure, h, h429]

/-! ## C22: season zero, strictness and list position -/

/-- Empty lists at the front only advance the list counter. -/
theorem bestShowLoop_skip_empty (P season : String) (isStrict : Bool) (old : String)
    (n : Nat) (rest : List (List (Option ShowImage))) (idx : Nat) :
    bestShowLoop P season isStrict old (List.replicate n [] ++ rest) idx =
      bestShowLoop P season isStrict old rest (idx + n) := by
  induction n generalizing idx with
  | zero => rfl
  | succ n ih =>
    have hstep : bestShowLoop P season isStrict old
        (List.replicate (n + 1) [] ++ rest) idx =
        bestShowLoop P season isStrict old (List.replicate n [] ++ rest) (idx + 1) := by
      simp [List.replicate_succ, bestShowLoop, bestShowScan]
    rw [hstep, ih (idx + 1)]
    congr 1
    omega

/-- A single season-`"0"` English or unset entry with positive likes, in the list at
position `idx + 1`, under a query season other than `""` and `"0"`: it is selected
exactly when the second inner loop admits season zero. -/
theorem bestShowLoop_season_zero (P s : String) (isStrict : Bool) (old : String)
    (i : ShowImage) (idx : Nat) (hs : s ≠ "") (hs0 : s ≠ "0")
    (hseason : i.Season = "0") (hlang : i.Lang = "en" ∨ i.Lang = "")
    (hlikes : 0 < likeConvert i.Likes) :
    bestShowLoop P s isStrict old [[some i]] idx =
      if isStrict = false ∨ idx + 1 > 1 then i.URL else old := by
  have hs0' : ¬ "0" = s := fun e => hs0 e.symm
  have ht1 : tier1 s i = false := by simp [tier1, hs, hseason, hs0']
  by_cases hc : isStrict = false ∨ idx + 1 > 1
  · have ht2 : tier2 s isStrict (idx + 1) i = true := by
      simp only [tier2, decide_eq_true_eq]
      exact Or.inr (Or.inl ⟨hseason, hc⟩)
    rw [if_pos hc]
    by_cases hP : i.Lang = P
    · simp [bestShowLoop, bestShowScan, ht1, ht2, hP]
    · simp [bestShowLoop, bestShowScan, ht1, ht2, hP, hlang, hlikes]
  · have ht2 : tier2 s isStrict (idx + 1) i = false := by
      simp only [tier2, decide_eq_false_iff_not]
      rintro (h | ⟨_, h⟩ | h)
      · exact hs h
      · exact hc h
      · rw [hseason] at h
        exact absurd h (by decide)
    rw [if_neg hc]
    simp [bestShowLoop, bestShowScan, ht1, ht2]

/-- C22. Season-zero qualification at Tier 2 depends on strictness and list position:
for a query season `s` other than `""` and `"0"`, `k ≥ 1`, and `k - 1` empty lists
followed by the one-entry list `[{season "0", lang "en" or "", likes > 0, url Z}]`,
`GetBestShowImage` returns `Z` if strict is false or `k > 1`, and returns `old`
otherwise; when `Z` differs from `old`, it returns `Z` if and only if strict is false
or `k > 1`. -/
theorem GetBestShowImage_season_zero (P s : String) (isStrict : Bool) (old : String)
    (i : ShowImage) (k : Nat) (hk : 1 ≤ k) (hs : s ≠ "") (hs0 : s ≠ "0")
    (hseason : i.Season = "0") (hlang : i.Lang = "en" ∨ i.Lang = "")
    (hlikes : 0 < likeConvert i.Likes) :
    ((isStrict = false ∨ k > 1) →
      GetBestShowImage P s isStrict old (List.replicate (k - 1) [] ++ [[some i]]) = i.URL) ∧
    (¬ (isStrict = false ∨ k > 1) →
      GetBestShowImage P s isStrict old (List.replicate (k - 1) [] ++ [[some i]]) = old) ∧
    (i.URL ≠ old →
      (GetBestShowImage P s isStrict old (List.replicate (k - 1) [] ++ [[some i]]) = i.URL ↔
        (isStrict = false ∨ k > 1))) := by
  have hlen : (List.replicate (k - 1) ([] : List (Option ShowImage)) ++ [[some i]]).length ≠ 0 := by
    simp
  have hval : GetBestShowImage P s isStrict old (List.replicate (k - 1) [] ++ [[some i]]) =
      if isStrict = false ∨ k > 1 then i.URL else old := by
    simp only [GetBestShowImage, hlen, if_false]
    rw [bestShowLoop_skip_empty, bestShowLoop_season_zero P s isStrict old i _ hs hs0 hseason
      hlang hlikes]
    have hidx : 0 + (k - 1) + 1 = k := by omega
    rw [hidx]
  refine ⟨fun hc => by rw [hval, if_pos hc], fun hc => by rw [hval, if_neg hc], fun hne => ?_⟩
  constructor
  · intro h
    by_contra hc
    rw [hval, if_neg hc] at h
    exact hne h.symm
  · intro hc
    rw [hval, if_pos hc]

/-- C22 at `k = 2` in strict mode: one empty list, then the season-`"0"` entry. -/
theorem GetBestShowImage_season_zero_witness :
    GetBestShowImage "fr" "2" true "old"
      (List.replicate (2 - 1) [] ++ [[some ⟨⟨"1", "Z", "en", "5"⟩, "0"⟩]]) = "Z" :=
  (GetBestShowImage_season_zero "fr" "2" true "old" ⟨⟨"1", "Z", "en", "5"⟩, "0"⟩ 2
    (by decide) (by decide) (by decide) rfl (Or.inl rfl) (by decide)).1 (Or.inr (by decide))

/-- The four combinations of strictness and position evaluated. -/
theorem season_zero_samples :
    GetBestShowImage "fr" "2" true "old" [[some ⟨⟨"1", "Z", "en", "5"⟩, "0"⟩]] = "old" ∧
    GetBestShowImage "fr" "2" false "old" [[some ⟨⟨"1", "Z", "en", "5"⟩, "0"⟩]] = "Z" ∧
    GetBestShowImage "fr" "2" true "old" [[], [some ⟨⟨"1", "Z", "en", "5"⟩, "0"⟩]] = "Z" ∧
    GetBestShowImage "fr" "2" false "old" [[], [some ⟨⟨"1", "Z", "en", "5"⟩, "0"⟩]] = "Z" := by
  decide

/-! ## C23: the unscoped show selection -/

/-- With a season condition that admits every entry, an inner loop of
`GetBestShowImage` is the inner loop of `GetBestImage` on the list without seasons. -/
theorem bestShowScan_unscoped (P : String) (qual : ShowImage → Bool)
    (hq : ∀ i, qual i = true) (l : List (Option ShowImage)) (bl : Int) (bi : String) :
    bestShowScan P qual l bl bi = bestScan P (dropSeason l) bl bi := by
  induction l generalizing bl bi with
  | nil => rfl
  | cons x rest ih =>
    cases x with
    | none => simpa [bestShowScan, bestScan, dropSeason] using ih bl bi
    | some i =>
      simp only [dropSeason, List.map_cons, Option.map_some'] at ih ⊢
      simp only [bestShowScan, bestScan, hq i, if_true]
      split
      · rfl
      · split
        · split <;> exact ih _ _
        · exact ih _ _

/-- With the query season `""` the outer loop of `GetBestShowImage` is the outer loop
of `GetBestImage` on the lists without seasons, whatever the strict flag and the
list counter. -/
theorem bestShowLoop_unscoped (P : String) (isStrict : Bool) (old : String)
    (lists : List (List (Option ShowImage))) (idx : Nat) :
    bestShowLoop P "" isStrict old lists idx = bestLoop P old (lists.map dropSeason) := by
  induction lists generalizing idx with
  | nil => rfl
  | cons l ls ih =>
    have h1 : ∀ bl bi, bestShowScan P (tier1 "") l bl bi = bestScan P (dropSeason l) bl bi :=
      bestShowScan_unscoped P _ (fun i => by simp [tier1]) l
    have h2 : ∀ bl bi, bestShowScan P (tier2 "" isStrict (idx + 1)) l bl bi =
        bestScan P (dropSeason l) bl bi :=
      bestShowScan_unscoped P _ (fun i => by simp [tier2]) l
    simp only [bestShowLoop, List.map_cons, bestLoop, h1, h2]
    rcases bestScan_result P (dropSeason l) 0 "" with ⟨i, _, hret⟩ | ⟨bl', bi', hc, hstate⟩
    · simp [hret]
    · rcases hstate with ⟨e1, e2⟩ | ⟨hlt, _⟩
      · subst e1 e2
        simp [hc, ih (idx + 1)]
      · simp [hc, hlt]

/-- C23. Unscoped show selection coincides with the movie path: for every preferred
language, fallback, strict flag and sequence of show lists, `GetBestShowImage` with
the query season `""` equals `GetBestImage` on the lists with the season field
projected away; in particular the strict flag has no effect. -/
theorem GetBestShowImage_unscoped (P : String) (isStrict : Bool) (old : String)
    (lists : List (List (Option ShowImage))) :
    GetBestShowImage P "" isStrict old lists = GetBestImage P old (lists.map dropSeason) ∧
    GetBestShowImage P "" isStrict old lists = GetBestShowImage P "" (!isStrict) old lists := by
  have h : ∀ strict, GetBestShowImage P "" strict old lists =
      GetBestImage P old (lists.map dropSeason) := by
    intro strict
    simp only [GetBestShowImage, GetBestImage, List.length_map, bestShowLoop_unscoped]
  exact ⟨h isStrict, (h isStrict).trans (h (!isStrict)).symm⟩

/-! ## C24: the best image among the acceptable ones -/

/-- An inner loop either returns the URL of a preferred-language entry, or ends with
its state unchanged, or ends with a larger `bestLikes` and the URL of an English or
unset entry as `bestItem`. -/
theorem bestScan_result_lang (P : String) (l : List (Option Image)) (bl : Int) (bi : String) :
    (∃ i, some i ∈ l ∧ i.Lang = P ∧ bestScan P l bl bi = Scan.ret i.URL) ∨
    ∃ bl' bi', bestScan P l bl bi = Scan.cont bl' bi' ∧
      ((bl' = bl ∧ bi' = bi) ∨
        (bl < bl' ∧ ∃ i, some i ∈ l ∧ (i.Lang = "en" ∨ i.Lang = "") ∧ i.URL = bi')) := by
  by_cases hex : ∃ j, some j ∈ l ∧ j.Lang = P
  · obtain ⟨i, hi, hiP, hret⟩ := bestScan_ret_of_mem P l hex
    exact Or.inl ⟨i, hi, hiP, hret bl bi⟩
  · have hP : ∀ j, some j ∈ l → j.Lang ≠ P := fun j hj e => hex ⟨j, hj, e⟩
    obtain ⟨bl', bi', h1, _, h3⟩ := bestScan_popular P l bl bi hP
    refine Or.inr ⟨bl', bi', h1, ?_⟩
    rcases h3 with h3 | ⟨hlt, a, i, b, hl, hen, _, hurl, _⟩
    · exact Or.inl h3
    · exact Or.inr ⟨hlt, i, by rw [hl]; simp, hen, hurl⟩

/-- The outer loop of `GetBestImage` gives the fallback or the URL of an entry whose
language is the preferred one, `"en"` or `""`. -/
theorem bestLoop_result_lang (P old : String) (lists : List (List (Option Image))) :
    bestLoop P old lists = old ∨
      ∃ l ∈ lists, ∃ i, some i ∈ l ∧ (i.Lang = P ∨ i.Lang = "en" ∨ i.Lang = "") ∧
        bestLoop P old lists = i.URL := by
  induction lists with
  | nil => exact Or.inl rfl
  | cons l ls ih =>
    rcases bestScan_result_lang P l 0 "" with ⟨i, hi, hiP, hret⟩ | ⟨bl', bi', hc, hstate⟩
    · exact Or.inr ⟨l, List.mem_cons_self _ _, i, hi, Or.inl hiP, by simp [bestLoop, hret]⟩
    · rcases hstate with ⟨e, _⟩ | ⟨hlt, i, hi, hen, hurl⟩
      · have hstep : bestLoop P old (l :: ls) = bestLoop P old ls := by
          simp [bestLoop, hc, e]
        rw [hstep]
        rcases ih with h | ⟨l', hl', i, hi, hq, h⟩
        · exact Or.inl h
        · exact Or.inr ⟨l', List.mem_cons_of_mem _ hl', i, hi, hq, h⟩
      · exact Or.inr ⟨l, List.mem_cons_self _ _, i, hi, Or.inr hen,
          by simp [bestLoop, hc, hlt, hurl]⟩

/-- C24. The best image is always one of the acceptable candidates: for every
preferred language, fallback and non-empty sequence of lists, `GetBestImage` is
either `old` or a member of `GetMultipleImage` on the same input. -/
theorem GetBestImage_mem_GetMultipleImage (P old : String)
    (lists : List (List (Option Image))) (hne : lists ≠ []) :
    GetBestImage P old lists = old ∨ GetBestImage P old lists ∈ GetMultipleImage P old lists := by
  have hlen : lists.length ≠ 0 := fun e => hne (List.length_eq_zero.1 e)
  have h1 : GetBestImage P old lists = bestLoop P old lists := by simp [GetBestImage, hlen]
  rw [h1]
  rcases bestLoop_result_lang P old lists with h | ⟨l, hl, i, hi, hq, h⟩
  · exact Or.inl h
  · right
    rw [h]
    exact mem_GetMultipleImage P old lists l hl i hi hq

/-- C24 at two lists: the best image `"F"` is the second of the acceptable ones. -/
theorem GetBestImage_mem_GetMultipleImage_witness :
    GetBestImage "fr" "old" [[some ⟨"1", "E", "en", "9"⟩, some ⟨"2", "F", "fr", "1"⟩], []] = "old" ∨
    GetBestImage "fr" "old" [[some ⟨"1", "E", "en", "9"⟩, some ⟨"2", "F", "fr", "1"⟩], []] ∈
      GetMultipleImage "fr" "old" [[some ⟨"1", "E", "en", "9"⟩, some ⟨"2", "F", "fr", "1"⟩], []] :=
  GetBestImage_mem_GetMultipleImage "fr" "old"
    [[some ⟨"1", "E", "en", "9"⟩, some ⟨"2", "F", "fr", "1"⟩], []] (by simp)

/-- Without any list the best image is `""`, which is neither `old` nor a member of
`[old]` when `old` is not empty: the restriction of C24 to a non-empty sequence of
lists is needed. -/
theorem best_image_without_lists :
    GetBestImage "fr" "old" [] = "" ∧ GetMultipleImage "fr" "old" [] = ["old"] := by
  decide

/-! ## C25: the season and episode mappers -/

/-- C25. The season and episode mappers are the same function: for every show,
season number and previous record, `Show.ToSeasonListItemArt` and
`Show.ToEpisodeListItemArt` return equal records. -/
theorem Show_season_episode_equal (P : String) (fa : Show) (season : Int) (old : ListItemArt) :
    Show.ToSeasonListItemArt P fa season old = Show.ToEpisodeListItemArt P fa season old :=
  rfl

/-! ## C21: the cache -/

/-- When `Get` returns a nil error it returns a response. -/
theorem Get_resp_of_nil_err (upstream : Nat → SendResult) (fuel : Nat) (st : Net)
    (r : GetResult) (st' : Net) (h : Get upstream fuel st = some (r, st'))
    (herr : r.err = none) : ∃ resp, r.resp = some resp := by
  induction fuel generalizing st r st' with
  | zero => simp [Get] at h
  | succ fuel ih =>
    simp only [Get, rlCall, getClosure] at h
    cases hu : upstream st.sends with
    | failed resp =>
      simp only [hu, Option.some.injEq, Prod.mk.injEq] at h
      rw [← h.1] at herr
      simp at herr
    | answered resp =>
      simp only [hu] at h
      by_cases h429 : resp.Status = 429
      · simp only [h429, if_true, Option.some.injEq, Prod.mk.injEq] at h
        exact ⟨resp, by rw [← h.1]⟩
      · by_cases h403 : resp.Status = 403 ∧ retriesLeft > 0
        · have hr : retriesLeft > 0 := h403.2
          cases hrec : Get upstream fuel ⟨st.sends + 1, st.coolDowns⟩ with
          | none => simp [h403.1, hr, hrec] at h
          | some out =>
            obtain ⟨r', st''⟩ := out
            simp [h403.1, hr, hrec] at h
            rw [← h.1] at herr ⊢
            exact ih _ r' st'' hrec herr
        · simp only [h429, h403, if_false, Option.some.injEq, Prod.mk.injEq] at h
          exact ⟨resp, by rw [← h.1]⟩

/-- On a network error of the send, `Get` returns that error after one send. -/
theorem Get_on_network_error (upstream : Nat → SendResult) (fuel : Nat) (st : Net)
    (resp : Option Response) (h : upstream st.sends = SendResult.failed resp) :
    Get upstream (fuel + 1) st =
      some (⟨resp, some GoError.network⟩, ⟨st.sends + 1, st.coolDowns⟩) := by
  simp [Get, rlCall, getClosure, h]

/-- The ID 0 short-circuits: nil, no cache access, no send. -/
theorem GetMovie_zero (key : Int → String) (unmarshal : Response → Option Movie × Bool)
    (upstream : Nat → SendResult) (fuel : Nat) (cache : CacheStore Movie) (st : Net) :
    GetMovie key unmarshal upstream fuel 0 cache st = some ⟨none, cache, st⟩ := by
  simp [GetMovie]

/-- On a cache hit `GetMovie` returns the cached aggregate; the cache is unchanged and
no send is issued, whatever the upstream. -/
theorem GetMovie_cache_hit (key : Int → String) (unmarshal : Response → Option Movie × Bool)
    (upstream : Nat → SendResult) (fuel : Nat) (id : Int) (cache : CacheStore Movie)
    (st : Net) (movie : Option Movie) (hid : id ≠ 0) (hhit : cache (key id) = some movie) :
    GetMovie key unmarshal upstream fuel id cache st = some ⟨movie, cache, st⟩ := by
  simp [GetMovie, hid, hhit]

/-- `GetMovie` writes the cache only on a miss, after `Get` has returned a response
with a nil error and `Unmarshal` has returned no error; the entry written is the one
of the requested ID. -/
theorem GetMovie_write_only_if (key : Int → String)
    (unmarshal : Response → Option Movie × Bool) (upstream : Nat → SendResult) (fuel : Nat)
    (id : Int) (cache : CacheStore Movie) (st : Net) (out : Fetched Movie)
    (h : GetMovie key unmarshal upstream fuel id cache st = some out) :
    out.cache = cache ∨
      (id ≠ 0 ∧ cache (key id) = none ∧
        ∃ r st' resp, Get upstream fuel st = some (r, st') ∧ r.err = none ∧
          r.resp = some resp ∧ (unmarshal resp).2 = false ∧
          out.cache = CacheStore.Set cache (key id) (unmarshal resp).1) := by
  unfold GetMovie at h
  by_cases hid : id = 0
  · simp only [hid, if_true, Option.some.injEq] at h
    exact Or.inl (by rw [← h])
  · simp only [hid, if_false] at h
    cases hc : cache (key id) with
    | some movie =>
      simp only [hc, Option.some.injEq] at h
      exact Or.inl (by rw [← h])
    | none =>
      simp only [hc] at h
      cases hg : Get upstream fuel st with
      | none => simp [hg] at h
      | some res =>
        obtain ⟨r, st'⟩ := res
        simp only [hg] at h
        by_cases herr : r.err ≠ none
        · rw [if_pos herr, Option.some.injEq] at h
          exact Or.inl (by rw [← h])
        · rw [if_neg herr] at h
          cases hresp : r.resp with
          | none => simp [hresp] at h
          | some resp =>
            simp only [hresp] at h
            by_cases hdec : (unmarshal resp).2 = true
            · rw [if_pos hdec, Option.some.injEq] at h
              exact Or.inl (by rw [← h])
            · rw [if_neg hdec, Option.some.injEq] at h
              refine Or.inr ⟨hid, rfl, r, st', resp, rfl, not_not.1 herr, hresp, ?_, ?_⟩
              · simpa using hdec
              · rw [← h]

/-- A network error leaves the cache unchanged and gives nil. -/
theorem GetMovie_network_error (key : Int → String)
    (unmarshal : Response → Option Movie × Bool) (upstream : Nat → SendResult) (fuel : Nat)
    (id : Int) (cache : CacheStore Movie) (st : Net) (resp : Option Response)
    (hid : id ≠ 0) (hmiss : cache (key id) = none)
    (h : upstream st.sends = SendResult.failed resp) :
    GetMovie key unmarshal upstream (fuel + 1) id cache st =
      some ⟨none, cache, ⟨st.sends + 1, st.coolDowns⟩⟩ := by
  simp [GetMovie, hid, hmiss, Get_on_network_error upstream fuel st resp h]

/-- A 429 answer whose body decodes is written to the cache and returned. -/
theorem GetMovie_on_429 (key : Int → String)
    (unmarshal : Response → Option Movie × Bool) (upstream : Nat → SendResult) (fuel : Nat)
    (id : Int) (cache : CacheStore Movie) (st : Net) (resp : Response)
    (hid : id ≠ 0) (hmiss : cache (key id) = none)
    (h : upstream st.sends = SendResult.answered resp) (h429 : resp.Status = 429)
    (hdec : (unmarshal resp).2 = false) :
    GetMovie key unmarshal upstream (fuel + 1) id cache st =
      some ⟨(unmarshal resp).1, CacheStore.Set cache (key id) (unmarshal resp).1,
        ⟨st.sends + 1, st.coolDowns + 1⟩⟩ := by
  simp [GetMovie, hid, hmiss, Get_on_429 upstream fuel st resp h h429, hdec]

/-- A 429 answer whose body does not decode leaves the cache unchanged. -/
theorem GetMovie_on_429_undecodable (key : Int → String)
    (unmarshal : Response → Option Movie × Bool) (upstream : Nat → SendResult) (fuel : Nat)
    (id : Int) (cache : CacheStore Movie) (st : Net) (resp : Response)
    (hid : id ≠ 0) (hmiss : cache (key id) = none)
    (h : upstream st.sends = SendResult.answered resp) (h429 : resp.Status = 429)
    (hdec : (unmarshal resp).2 = true) :
    GetMovie key unmarshal upstream (fuel + 1) id cache st =
      some ⟨(unmarshal resp).1, cache, ⟨st.sends + 1, st.coolDowns + 1⟩⟩ := by
  simp [GetMovie, hid, hmiss, Get_on_429 upstream fuel st resp h h429, hdec]

/-- The ID 0 short-circuits `GetShow` as well. -/
theorem GetShow_zero (key : Int → String) (unmarshal : Response → Option Show × Bool)
    (upstream : Nat → SendResult) (fuel : Nat) (cache : CacheStore Show) (st : Net) :
    GetShow key unmarshal upstream fuel 0 cache st = some ⟨none, cache, st⟩ := by
  simp [GetShow]

/-- On a cache hit `GetShow` returns the cached aggregate; the cache is unchanged and
no send is issued, whatever the upstream. -/
theorem GetShow_cache_hit (key : Int → String) (unmarshal : Response → Option Show × Bool)
    (upstream : Nat → SendResult) (fuel : Nat) (id : Int) (cache : CacheStore Show)
    (st : Net) (cached : Option Show) (hid : id ≠ 0) (hhit : cache (key id) = some cached) :
    GetShow key unmarshal upstream fuel id cache st = some ⟨cached, cache, st⟩ := by
  simp [GetShow, hid, hhit]

/-- `GetShow` writes the cache only on a miss, after `Get` has returned a response
with a nil error and `Unmarshal` has returned no error; the entry written is the one
of the requested ID. -/
theorem GetShow_write_only_if (key : Int → String)
    (unmarshal : Response → Option Show × Bool) (upstream : Nat → SendResult) (fuel : Nat)
    (id : Int) (cache : CacheStore Show) (st : Net) (out : Fetched Show)
    (h : GetShow key unmarshal upstream fuel id cache st = some out) :
    out.cache = cache ∨
      (id ≠ 0 ∧ cache (key id) = none ∧
        ∃ r st' resp, Get upstream fuel st = some (r, st') ∧ r.err = none ∧
          r.resp = some resp ∧ (unmarshal resp).2 = false ∧
          out.cache = CacheStore.Set cache (key id) (unmarshal resp).1) := by
  unfold GetShow at h
  by_cases hid : id = 0
  · simp only [hid, if_true, Option.some.injEq] at h
    exact Or.inl (by rw [← h])
  · simp only [hid, if_false] at h
    cases hc : cache (key id) with
    | some cached =>
      simp only [hc, Option.some.injEq] at h
      exact Or.inl (by rw [← h])
    | none =>
      simp only [hc] at h
      cases hg : Get upstream fuel st with
      | none => simp [hg] at h
      | some res =>
        obtain ⟨r, st'⟩ := res
        simp only [hg] at h
        by_cases herr : r.err ≠ none
        · rw [if_pos herr, Option.some.injEq] at h
          exact Or.inl (by rw [← h])
        · rw [if_neg herr] at h
          cases hresp : r.resp with
          | none => simp [hresp] at h
          | some resp =>
            simp only [hresp] at h
            by_cases hdec : (unmarshal resp).2 = true
            · rw [if_pos hdec, Option.some.injEq] at h
              exact Or.inl (by rw [← h])
            · rw [if_neg hdec, Option.some.injEq] at h
              refine Or.inr ⟨hid, rfl, r, st', resp, rfl, not_not.1 herr, hresp, ?_, ?_⟩
              · simpa using hdec
              · rw [← h]

/-- A network error leaves the cache unchanged and gives nil. -/
theorem GetShow_network_error (key : Int → String)
    (unmarshal : Response → Option Show × Bool) (upstream : Nat → SendResult) (fuel : Nat)
    (id : Int) (cache : CacheStore Show) (st : Net) (resp : Option Response)
    (hid : id ≠ 0) (hmiss : cache (key id) = none)
    (h : upstream st.sends = SendResult.failed resp) :
    GetShow key unmarshal upstream (fuel + 1) id cache st =
      some ⟨none, cache, ⟨st.sends + 1, st.coolDowns⟩⟩ := by
  simp [GetShow, hid, hmiss, Get_on_network_error upstream fuel st resp h]

/-- A 429 answer whose body decodes is written to the cache and returned. -/
theorem GetShow_on_429 (key : Int → String)
    (unmarshal : Response → Option Show × Bool) (upstream : Nat → SendResult) (fuel : Nat)
    (id : Int) (cache : CacheStore Show) (st : Net) (resp : Response)
    (hid : id ≠ 0) (hmiss : cache (key id) = none)
    (h : upstream st.sends = SendResult.answered resp) (h429 : resp.Status = 429)
    (hdec : (unmarshal resp).2 = false) :
    GetShow key unmarshal upstream (fuel + 1) id cache st =
      some ⟨(unmarshal resp).1, CacheStore.Set cache (key id) (unmarshal resp).1,
        ⟨st.sends + 1, st.coolDowns + 1⟩⟩ := by
  simp [GetShow, hid, hmiss, Get_on_429 upstream fuel st resp h h429, hdec]

/-- A 429 answer whose body does not decode leaves the cache unchanged. -/
theorem GetShow_on_429_undecodable (key : Int → String)
    (unmarshal : Response → Option Show × Bool) (upstream : Nat → SendResult) (fuel : Nat)
    (id : Int) (cache : CacheStore Show) (st : Net) (resp : Response)
    (hid : id ≠ 0) (hmiss : cache (key id) = none)
    (h : upstream st.sends = SendResult.answered resp) (h429 : resp.Status = 429)
    (hdec : (unmarshal resp).2 = true) :
    GetShow key unmarshal upstream (fuel + 1) id cache st =
      some ⟨(unmarshal resp).1, cache, ⟨st.sends + 1, st.coolDowns + 1⟩⟩ := by
  simp [GetShow, hid, hmiss, Get_on_429 upstream fuel st resp h h429, hdec]

/-- C21. The cache can be poisoned by a rate-limited response: with an empty cache and
an upstream that answers 429 with the body `{}`, `Get` returns the response with a nil
error, `Unmarshal` decodes the body without error, and `GetMovie` and `GetShow` write
the decoded aggregate into the cache entry of the requested ID and return it. -/
theorem cache_written_on_429 :
    emptyCache Movie (sampleKey 7) = none ∧
    (GetMovie sampleKey (decodeObject emptyMovie) upstream429Object 1 7 (emptyCache Movie)
      ⟨0, 0⟩).map (fun out => (out.value, out.cache (sampleKey 7), out.net)) =
      some (some emptyMovie, some (some emptyMovie), ⟨1, 1⟩) ∧
    emptyCache Show (sampleKey 7) = none ∧
    (GetShow sampleKey (decodeObject emptyShow) upstream429Object 1 7 (emptyCache Show)
      ⟨0, 0⟩).map (fun out => (out.value, out.cache (sampleKey 7), out.net)) =
      some (some emptyShow, some (some emptyShow), ⟨1, 1⟩) := by
  decide

/-! ## C7: de-duplication and the position of first discovery -/

theorem foldl_appendNew_nil (us : List String) : us.foldl appendNew [] = removeRepeats us := by
  rw [foldl_appendNew]; simp

theorem mem_removeRepeats (us : List String) (y : String) : y ∈ removeRepeats us ↔ y ∈ us := by
  rw [← foldl_appendNew_nil, mem_foldl_appendNew]; simp

theorem removeRepeats_nodup (us : List String) : (removeRepeats us).Nodup := by
  induction us with
  | nil => simp [removeRepeats]
  | cons u us ih =>
    simp only [removeRepeats, List.nodup_cons, List.mem_filter, decide_eq_true_eq]
    exact ⟨fun h => h.2 rfl, ih.filter _⟩

/-- Later discoveries neither move nor change what has been collected: the first
occurrences of `xs ++ ys` are those of `xs`, followed by those of `ys` that are new. -/
theorem removeRepeats_append (xs ys : List String) :
    removeRepeats (xs ++ ys) =
      removeRepeats xs ++ (removeRepeats ys).filter (fun y => decide (y ∉ removeRepeats xs)) := by
  rw [← foldl_appendNew_nil (xs ++ ys), List.foldl_append, foldl_appendNew_nil, foldl_appendNew]

/-- A URL discovered for the first time after the URLs `a` sits at the index that
counts the distinct URLs of `a`. -/
theorem removeRepeats_position (a b : List String) (u : String) (h : u ∉ a) :
    (removeRepeats (a ++ u :: b))[(removeRepeats a).length]? = some u := by
  have hu : u ∉ removeRepeats a := fun e => h ((mem_removeRepeats a u).1 e)
  rw [removeRepeats_append, List.getElem?_append_right (le_refl _)]
  simp [removeRepeats, List.filter_cons, hu]

theorem prefix_getElem? (pre r : List String) (k : Nat) (u : String) (hp : pre <+: r)
    (hk : pre[k]? = some u) : r[k]? = some u := by
  obtain ⟨t, rfl⟩ := hp
  have hlt : k < pre.length := by
    by_contra hge
    rw [List.getElem?_eq_none (not_lt.1 hge)] at hk
    cases hk
  rw [List.getElem?_append_left hlt]
  exact hk

theorem appendNew_front (res : List String) (u : String) : res <+: appendNew res u := by
  unfold appendNew
  split
  · exact List.prefix_append res [u]
  · exact List.prefix_refl res

theorem multiShowScan_front (P : String) (qual : ShowImage → Bool)
    (l : List (Option ShowImage)) (res : List String) :
    res <+: multiShowScan P qual l res := by
  induction l generalizing res with
  | nil => exact List.prefix_refl res
  | cons x rest ih =>
    cases x with
    | none => exact ih res
    | some i =>
      simp only [multiShowScan]
      split
      · refine List.IsPrefix.trans ?_ (ih _)
        rw [multiStep_eq]
        split
        · exact appendNew_front res _
        · exact List.prefix_refl res
      · exact ih res

/-- What has been collected before a list is read stays at the front of the result. -/
theorem multiShowLoop_front (P season old : String) (lists : List (List (Option ShowImage)))
    (res : List String) (hres : res ≠ []) :
    res <+: multiShowLoop P season old lists res := by
  cases lists with
  | nil =>
    have hpos : 0 < res.length := List.length_pos.2 hres
    simp [multiShowLoop, hpos]
  | cons l ls =>
    have hp := multiShowScan_front P (tier1 season) l res
    have hne : multiShowScan P (tier1 season) l res ≠ [] := by
      intro e
      rw [e] at hp
      exact hres (List.prefix_nil.1 hp)
    rw [multiShowLoop_early_return P season old l ls res hne]
    exact hp

/-- An inner loop of `GetMultipleShowImage` started with the empty result collects the
first occurrences of the acceptable URLs of the entries that pass its season
condition. -/
theorem multiShowScan_nil (P : String) (qual : ShowImage → Bool) (l : List (Option ShowImage)) :
    multiShowScan P qual l [] = removeRepeats (acceptableURLs P (qualified qual l)) := by
  rw [multiShowScan_eq, multiScan_eq_foldl, foldl_appendNew_nil]

/-- The URLs collected from the first list at Tier 1 are at the front of the result. -/
theorem GetMultipleShowImage_tier1_front (P season old : String)
    (l : List (Option ShowImage)) (rest : List (List (Option ShowImage)))
    (h : acceptableURLs P (qualified (tier1 season) l) ≠ []) :
    removeRepeats (acceptableURLs P (qualified (tier1 season) l)) <+:
      GetMultipleShowImage P season old (l :: rest) := by
  have hne : multiShowScan P (tier1 season) l [] ≠ [] := by
    rw [multiShowScan_nil]
    exact fun e => h ((removeRepeats_eq_nil _).1 e)
  rw [GetMultipleShowImage_first_list_decides P season old l rest hne, multiShowScan_nil]

/-- When the first list gives nothing at Tier 1, the URLs collected from it at Tier 2
are at the front of the result. -/
theorem GetMultipleShowImage_tier2_front (P season old : String)
    (l : List (Option ShowImage)) (rest : List (List (Option ShowImage)))
    (h1 : acceptableURLs P (qualified (tier1 season) l) = [])
    (h2 : acceptableURLs P (qualified (tier2Multi season) l) ≠ []) :
    removeRepeats (acceptableURLs P (qualified (tier2Multi season) l)) <+:
      GetMultipleShowImage P season old (l :: rest) := by
  have hs1 : multiShowScan P (tier1 season) l [] = [] := by
    rw [multiShowScan_nil, h1]; rfl
  have hs2 := multiShowScan_nil P (tier2Multi season) l
  have hne : removeRepeats (acceptableURLs P (qualified (tier2Multi season) l)) ≠ [] :=
    fun e => h2 ((removeRepeats_eq_nil _).1 e)
  have hval : GetMultipleShowImage P season old (l :: rest) =
      multiShowLoop P season old rest
        (removeRepeats (acceptableURLs P (qualified (tier2Multi season) l))) := by
    simp [GetMultipleShowImage, multiShowLoop, hs1, hs2]
  rw [hval]
  exact multiShowLoop_front P season old rest _ hne

theorem GetMultipleImage_nodup (P old : String) (lists : List (List (Option Image))) :
    (GetMultipleImage P old lists).Nodup := by
  simp only [GetMultipleImage]
  split
  · exact List.nodup_singleton old
  · split
    · exact multiLoop_nodup P lists [] List.nodup_nil
    · exact List.nodup_singleton old

theorem GetMultipleShowImage_nodup (P season old : String)
    (showLists : List (List (Option ShowImage))) :
    (GetMultipleShowImage P season old showLists).Nodup := by
  simp only [GetMultipleShowImage]
  split
  · exact List.nodup_singleton old
  · exact multiShowLoop_nodup P season old showLists [] List.nodup_nil

/-- With an acceptable URL discovered, `GetMultipleImage` returns the first
occurrences of the acceptable URLs over the concatenation of the lists. -/
theorem GetMultipleImage_eq_removeRepeats (P old : String) (lists : List (List (Option Image)))
    (h : acceptableURLs P lists.flatten ≠ []) :
    GetMultipleImage P old lists = removeRepeats (acceptableURLs P lists.flatten) := by
  have hloop : multiLoop P lists [] = removeRepeats (acceptableURLs P lists.flatten) := by
    rw [multiLoop_eq_foldl, foldl_appendNew_nil]
  have hne : removeRepeats (acceptableURLs P lists.flatten) ≠ [] :=
    fun e => h ((removeRepeats_eq_nil _).1 e)
  have hlists : lists.length ≠ 0 := by
    intro e
    rw [List.length_eq_zero.1 e] at h
    exact h rfl
  have hpos : 0 < (removeRepeats (acceptableURLs P lists.flatten)).length :=
    List.length_pos.2 hne
  simp only [GetMultipleImage, hlists, if_false, hloop, hpos, if_true]

/-- The URL of an acceptable entry that passes a season condition is among the
acceptable URLs of the entries passing that condition. -/
theorem mem_acceptableURLs_qualified (P : String) (qual : ShowImage → Bool)
    (l : List (Option ShowImage)) (i : ShowImage) (hi : some i ∈ l) (hq : qual i = true)
    (hl : i.Lang = P ∨ i.Lang = "en" ∨ i.Lang = "") :
    i.URL ∈ acceptableURLs P (qualified qual l) :=
  (mem_acceptableURLs P _ _).2 ⟨i.toImage, (mem_qualified qual l _).2 ⟨i, hi, hq, rfl⟩, hl, rfl⟩

/-- C7, as stated, fails for `GetMultipleShowImage`. With preferred language `"en"`,
query season `"2"` and the single list `[{season "2", en, A}, {season "0", en, B}]`,
the entry with url `"B"` is both preferred-language and English and yet contributes no
occurrence: the list is read at Tier 1 and Tier 2 is not reached. With the unscoped
season `""` and the two lists `[{en, A}]`, `[{en, B}]`, the entry of the second list
contributes no occurrence either, because of the return after the first inner loop. -/
theorem AllOf_deduplicates_counterexample :
    GetMultipleShowImage "en" "2" "old"
      [[some ⟨⟨"1", "A", "en", "1"⟩, "2"⟩, some ⟨⟨"2", "B", "en", "1"⟩, "0"⟩]] = ["A"] ∧
    (GetMultipleShowImage "en" "2" "old"
      [[some ⟨⟨"1", "A", "en", "1"⟩, "2"⟩, some ⟨⟨"2", "B", "en", "1"⟩, "0"⟩]]).count "B" = 0 ∧
    GetMultipleShowImage "en" "" "old"
      [[some ⟨⟨"1", "A", "en", "1"⟩, ""⟩], [some ⟨⟨"2", "B", "en", "1"⟩, ""⟩]] = ["A"] ∧
    (GetMultipleShowImage "en" "" "old"
      [[some ⟨⟨"1", "A", "en", "1"⟩, ""⟩], [some ⟨⟨"2", "B", "en", "1"⟩, ""⟩]]).count "B" = 0 := by
  decide

/-- C7, amended. The multiple-image selectors de-duplicate. For every input the lists
returned by `GetMultipleImage` and by `GetMultipleShowImage` contain no URL twice. In
`GetMultipleImage` every entry whose language is the preferred one, `"en"` or `""`
(both at once included, and whether or not another entry carries the same URL)
contributes exactly one occurrence, at the position of its first discovery: a URL
first discovered after the URLs `a` sits at the index that counts the distinct URLs of
`a`. In `GetMultipleShowImage` the same holds for the entries of the first supplied
list `l` that pass the season condition of Tier 1, and for those that pass the one of
Tier 2 when no acceptable entry of `l` passes Tier 1. -/
theorem AllOf_deduplicates (P season old : String) (lists : List (List (Option Image)))
    (showLists : List (List (Option ShowImage)))
    (l : List (Option ShowImage)) (rest : List (List (Option ShowImage))) :
    (GetMultipleImage P old lists).Nodup ∧
    (GetMultipleShowImage P season old showLists).Nodup ∧
    (∀ l' ∈ lists, ∀ i, some i ∈ l' → (i.Lang = P ∨ i.Lang = "en" ∨ i.Lang = "") →
      (GetMultipleImage P old lists).count i.URL = 1) ∧
    (∀ a u b, acceptableURLs P lists.flatten = a ++ u :: b → u ∉ a →
      (GetMultipleImage P old lists)[(removeRepeats a).length]? = some u) ∧
    (∀ i, some i ∈ l → tier1 season i = true → (i.Lang = P ∨ i.Lang = "en" ∨ i.Lang = "") →
      (GetMultipleShowImage P season old (l :: rest)).count i.URL = 1) ∧
    (∀ a u b, acceptableURLs P (qualified (tier1 season) l) = a ++ u :: b → u ∉ a →
      (GetMultipleShowImage P season old (l :: rest))[(removeRepeats a).length]? = some u) ∧
    (acceptableURLs P (qualified (tier1 season) l) = [] →
      (∀ i, some i ∈ l → tier2Multi season i = true →
        (i.Lang = P ∨ i.Lang = "en" ∨ i.Lang = "") →
        (GetMultipleShowImage P season old (l :: rest)).count i.URL = 1) ∧
      (∀ a u b, acceptableURLs P (qualified (tier2Multi season) l) = a ++ u :: b → u ∉ a →
        (GetMultipleShowImage P season old (l :: rest))[(removeRepeats a).length]? = some u)) := by
  have h1 := GetMultipleImage_nodup P old lists
  have h2 := GetMultipleShowImage_nodup P season old showLists
  have h3 := GetMultipleShowImage_nodup P season old (l :: rest)
  refine ⟨h1, h2, ?_, ?_, ?_, ?_, ?_⟩
  · intro l' hl' i hi hq
    exact List.count_eq_one_of_mem h1 (mem_GetMultipleImage P old lists l' hl' i hi hq)
  · intro a u b hd hu
    have hne : acceptableURLs P lists.flatten ≠ [] := by rw [hd]; simp
    rw [GetMultipleImage_eq_removeRepeats P old lists hne, hd]
    exact removeRepeats_position a b u hu
  · intro i hi hq hl
    have hmem := mem_acceptableURLs_qualified P (tier1 season) l i hi hq hl
    have hne : acceptableURLs P (qualified (tier1 season) l) ≠ [] :=
      List.ne_nil_of_mem hmem
    exact List.count_eq_one_of_mem h3
      ((GetMultipleShowImage_tier1_front P season old l rest hne).subset
        ((mem_removeRepeats _ _).2 hmem))
  · intro a u b hd hu
    have hne : acceptableURLs P (qualified (tier1 season) l) ≠ [] := by rw [hd]; simp
    refine prefix_getElem? _ _ _ u (GetMultipleShowImage_tier1_front P season old l rest hne) ?_
    rw [hd]
    exact removeRepeats_position a b u hu
  · intro hnil
    constructor
    · intro i hi hq hl
      have hmem := mem_acceptableURLs_qualified P (tier2Multi season) l i hi hq hl
      have hne : acceptableURLs P (qualified (tier2Multi season) l) ≠ [] :=
        List.ne_nil_of_mem hmem
      exact List.count_eq_one_of_mem h3
        ((GetMultipleShowImage_tier2_front P season old l rest hnil hne).subset
          ((mem_removeRepeats _ _).2 hmem))
    · intro a u b hd hu
      have hne : acceptableURLs P (qualified (tier2Multi season) l) ≠ [] := by rw [hd]; simp
      refine prefix_getElem? _ _ _ u
        (GetMultipleShowImage_tier2_front P season old l rest hnil hne) ?_
      rw [hd]
      exact removeRepeats_position a b u hu

/-- C7, amended, at concrete inputs with preferred language `"en"`: the URL `"U"` is
carried by two acceptable entries and `"V"` is discovered after it, in two movie lists
and in a first show list of season `"2"` followed by a second list. -/
theorem AllOf_deduplicates_witness :
    (GetMultipleImage "en" "old"
      [[some ⟨"1", "U", "en", "1"⟩, some ⟨"2", "U", "", "2"⟩], [some ⟨"3", "V", "en", "3"⟩]]).count
      "U" = 1 ∧
    (GetMultipleImage "en" "old"
      [[some ⟨"1", "U", "en", "1"⟩, some ⟨"2", "U", "", "2"⟩], [some ⟨"3", "V", "en", "3"⟩]])[
      (removeRepeats ["U", "U"]).length]? = some "V" ∧
    (GetMultipleShowImage "en" "2" "old"
      ([some ⟨⟨"1", "U", "en", "1"⟩, "2"⟩, some ⟨⟨"2", "U", "", "2"⟩, "2"⟩,
        some ⟨⟨"3", "V", "en", "3"⟩, "2"⟩] :: [[some ⟨⟨"4", "W", "en", "1"⟩, "2"⟩]])).count
      "U" = 1 ∧
    (GetMultipleShowImage "en" "2" "old"
      ([some ⟨⟨"1", "U", "en", "1"⟩, "2"⟩, some ⟨⟨"2", "U", "", "2"⟩, "2"⟩,
        some ⟨⟨"3", "V", "en", "3"⟩, "2"⟩] :: [[some ⟨⟨"4", "W", "en", "1"⟩, "2"⟩]]))[
      (removeRepeats ["U", "U"]).length]? = some "V" :=
  have h := AllOf_deduplicates "en" "2" "old"
    [[some ⟨"1", "U", "en", "1"⟩, some ⟨"2", "U", "", "2"⟩], [some ⟨"3", "V", "en", "3"⟩]] []
    [some ⟨⟨"1", "U", "en", "1"⟩, "2"⟩, some ⟨⟨"2", "U", "", "2"⟩, "2"⟩,
      some ⟨⟨"3", "V", "en", "3"⟩, "2"⟩]
    [[some ⟨⟨"4", "W", "en", "1"⟩, "2"⟩]]
  ⟨h.2.2.1 [some ⟨"1", "U", "en", "1"⟩, some ⟨"2", "U", "", "2"⟩] (by simp)
      ⟨"2", "U", "", "2"⟩ (by simp) (Or.inr (Or.inr rfl)),
    h.2.2.2.1 ["U", "U"] "V" [] (by decide) (by decide),
    h.2.2.2.2.1 ⟨⟨"2", "U", "", "2"⟩, "2"⟩ (by simp) (by decide) (Or.inr (Or.inr rfl)),
    h.2.2.2.2.2.1 ["U", "U"] "V" [] (by decide) (by decide)⟩

end Fanart
